import Mathlib

/-!
Shallow embedding of the character-consistent story illustration pipeline of
the AIVocabulary repository, together with theorems settling the claims about
it.  The TypeScript sources embedded here are:

* `src/lib/google-production-storybook.ts` — character profiling, scene
  extraction, pagination, the story-page loop and translation injection;
* `src/lib/ai-image-generation.ts` — the DALL-E tier with its catch-all
  fallback;
* `src/lib/google-storybook-engine.ts` — the narrative-arc breakpoints;
* the illustration module (`generatePageIllustration`) — placeholder cycling.

Modelling conventions: JavaScript numbers are embedded as `ℚ` (the numeric
literals in the embedded code are exact decimal fractions and all arithmetic
performed on them here is exact); 32-bit bitwise coercions are made explicit
with `toInt32`; `async` functions that can throw are embedded as `Except
String` values, with external calls (OpenAI, the Node backend, the health
check) passed in as oracle arguments describing the outcome of the call;
wall-clock durations (`Date.now()` differences) are passed in as a parameter.
-/

set_option maxRecDepth 4000

/-! ### Small string utilities shared by the embedded functions -/

/-- ASCII case-folding of one character. -/
def lowerChar (c : Char) : Char :=
  if 'A' ≤ c && c ≤ 'Z' then Char.ofNat (c.toNat + 32) else c

/-- Case-folding used to model JavaScript `toLowerCase()` on the ASCII texts
the pipeline manipulates. -/
def lowerStr (s : String) : String := String.mk (s.toList.map lowerChar)

/-- Does the list start with the given chunk (exact characters)? -/
def charsStartWith : List Char → List Char → Bool
  | [], _ => true
  | _ :: _, [] => false
  | a :: as, b :: bs => a == b && charsStartWith as bs

/-- Does the haystack contain the needle as a contiguous run?  Models
JavaScript `String.prototype.includes`. -/
def charsContain (needle : List Char) : List Char → Bool
  | [] => charsStartWith needle []
  | c :: cs => charsStartWith needle (c :: cs) || charsContain needle cs

/-- `hay.includes(needle)` on strings. -/
def strContains (hay needle : String) : Bool :=
  charsContain needle.toList hay.toList

/-! ### `hashString` and the character profiler
(`google-production-storybook.ts`) -/

/-- JavaScript `ToInt32`: wrap an integer to the signed 32-bit range, as the
`& `/`<<` operators do. -/
def toInt32 (x : Int) : Int := (x + 2 ^ 31) % 2 ^ 32 - 2 ^ 31

/-- One iteration of `hashString`'s loop:
`hash = ((hash << 5) - hash) + char; hash = hash & hash`. -/
def hashStep (hash : Int) (c : Nat) : Int :=
  toInt32 (toInt32 (hash * 32) - hash + c)

/-- `hashString` from `google-production-storybook.ts`, up to the final
`Math.abs(hash).toString(16)` which is split out as `hashHex`. -/
def hashString (s : String) : Int :=
  s.toList.foldl (fun h c => hashStep h c.toNat) 0

/-- Lowercase hexadecimal digits of a natural number (JS `toString(16)`). -/
def hexString (n : Nat) : String := ⟨Nat.toDigits 16 n⟩

/-- `Math.abs(this.hashString(str)).toString(16)` as used throughout the
generator. -/
def hashHex (s : String) : String := hexString (hashString s).natAbs

/-- `generateCharacterId`: `maya_` followed by the first eight hex digits of
the locator hash. -/
def generateCharacterId (imageUrl : String) : String :=
  "maya_" ++ (hashHex imageUrl).take 8

/-- `generateVisualEmbedding`: the 512-entry numeric vector derived from the
hex digits of the locator hash,
`(hash.charCodeAt(i % hash.length) / 255) * 2 - 1`. -/
def generateVisualEmbedding (imageUrl : String) : List ℚ :=
  let hash := hashHex imageUrl
  (List.range 512).map (fun i =>
    ((hash.toList.getD (i % hash.length) 'x').toNat : ℚ) / 255 * 2 - 1)

/-! ### Narrative-arc position (`createStoryContext`,
`google-storybook-engine.ts`) -/

inductive StoryArc where
  | beginning | rising | climax | falling | resolution
deriving Repr, DecidableEq

/-- The `storyArc` selection inside `createStoryContext`: nested comparisons
of `pageIndex` against `totalPages * 0.2 / 0.6 / 0.7 / 0.9`. -/
def storyArc (pageIndex totalPages : ℕ) : StoryArc :=
  if (pageIndex : ℚ) < totalPages * (2 / 10) then .beginning
  else if (pageIndex : ℚ) < totalPages * (6 / 10) then .rising
  else if (pageIndex : ℚ) < totalPages * (7 / 10) then .climax
  else if (pageIndex : ℚ) < totalPages * (9 / 10) then .falling
  else .resolution

example : storyArc 0 10 = .beginning := by norm_num [storyArc]
example : storyArc 5 10 = .rising := by norm_num [storyArc]
example : storyArc 6 10 = .climax := by norm_num [storyArc]
example : storyArc 9 10 = .resolution := by norm_num [storyArc]

/-! ### Data model of `GoogleProductionStorybook`
(`google-production-storybook.ts`) -/

inductive ArtStyle where
  | anime | realistic | cartoon | manga
deriving Repr, DecidableEq

/-- String interpolation of the art style (template literals in the source). -/
def artStyleStr : ArtStyle → String
  | .anime => "anime"
  | .realistic => "realistic"
  | .cartoon => "cartoon"
  | .manga => "manga"

structure FacialFeatures where
  eyeColor : String
  hairColor : String
  skinTone : String
  faceShape : String
  age : String
  gender : String
deriving Repr, DecidableEq

structure Personality where
  confidence : ℚ
  friendliness : ℚ
  intelligence : ℚ
  energy : ℚ
deriving Repr, DecidableEq

structure GoogleProductionCharacterProfile where
  characterId : String
  facialFeatures : FacialFeatures
  artStyle : ArtStyle
  colorPalette : List String
  visualEmbedding : List ℚ
  personality : Personality
deriving Repr, DecidableEq

/-- The record `{ prompt, imageUrl, characterConsistencyScore }` produced for
every page image. -/
structure GenImageData where
  prompt : String
  imageUrl : String
  characterConsistencyScore : ℚ
deriving Repr, DecidableEq

structure GoogleStoryPage where
  pageNumber : Nat
  textContent : String
  characterAction : String
  sceneDescription : String
  emotionalTone : String
  generatedImageData : GenImageData
deriving Repr, DecidableEq

/-- Result record of the Node backend's `generateCharacterImage` call
(`backend-image-service.ts`), as consumed by the generator. -/
structure BackendGenerationResult where
  prompt : String
  imageUrl : String
  consistencyScore : ℚ
  generationTime : Nat
deriving Repr, DecidableEq

/-- Mutable fields of the `GoogleProductionStorybook` class.  Of the backend
profile only the presence (and `characterId`) matters to the embedded code. -/
structure SBState where
  characterProfile : Option GoogleProductionCharacterProfile
  backendCharacterProfileId : Option String
deriving Repr, DecidableEq

/-- A fresh `new GoogleProductionStorybook()`: both fields `null`. -/
def initialSBState : SBState := { characterProfile := none, backendCharacterProfileId := none }

/-! ### Character analysis (profiler) -/

/-- `extractFacialFeatures` — fixed simulated output. -/
def extractFacialFeatures (_imageUrl : String) : FacialFeatures :=
  { eyeColor := "brown", hairColor := "dark brown", skinTone := "medium"
    faceShape := "oval", age := "young adult", gender := "female" }

/-- `detectArtStyle` — fixed simulated output. -/
def detectArtStyle (_imageUrl : String) : ArtStyle := .manga

/-- `extractColorPalette` — fixed simulated output. -/
def extractColorPalette (_imageUrl : String) : List String :=
  ["#8B4513", "#F4E4BC", "#2F1B14", "#6B8E23", "#D2B48C"]

/-- `inferPersonalityTraits` — fixed simulated output. -/
def inferPersonalityTraits (_ff : FacialFeatures) (_artStyle : ArtStyle) : Personality :=
  { confidence := 8/10, friendliness := 9/10, intelligence := 95/100, energy := 7/10 }

/-- `analyzeCharacterImageFallback`: builds the deterministic profile from the
locator and stores it in `this.characterProfile`. -/
def analyzeCharacterImageFallback (st : SBState) (imageUrl : String) :
    GoogleProductionCharacterProfile × SBState :=
  let facialFeatures := extractFacialFeatures imageUrl
  let artStyle := detectArtStyle imageUrl
  let profile : GoogleProductionCharacterProfile :=
    { characterId := generateCharacterId imageUrl
      facialFeatures
      artStyle
      colorPalette := extractColorPalette imageUrl
      visualEmbedding := generateVisualEmbedding imageUrl
      personality := inferPersonalityTraits facialFeatures artStyle }
  (profile, { st with characterProfile := some profile })

/-- `analyzeCharacterImage`: currently always uses the fallback analysis; the
backend health check (`healthOutcome` oracle) is only logged, and its failure
is caught, so it cannot influence the returned profile. -/
def analyzeCharacterImage (st : SBState) (imageUrl : String)
    (_healthOutcome : Except String Bool) :
    GoogleProductionCharacterProfile × SBState :=
  analyzeCharacterImageFallback st imageUrl

/-! ### Scene extraction: priority-ordered keyword rules -/

/-- A regex `/(?:k₁|k₂|…)/i.test(text)` over plain keywords holds exactly when
some keyword occurs (case-insensitively) in the text. -/
def matchesRule (keywords : List String) (text : String) : Bool :=
  keywords.any (fun k => strContains (lowerStr text) k)

/-- First-match-wins scan of an ordered rule list, with a fixed default when
no rule fires — the shared shape of the three extractors. -/
def firstMatchLabel (rules : List (List String × String)) (dflt : String)
    (text : String) : String :=
  match rules.find? (fun r => matchesRule r.1 text) with
  | some r => r.2
  | none => dflt

/-- The ordered `actionPatterns` list of `extractCharacterAction`. -/
def actionPatterns : List (List String × String) :=
  [ (["reading", "studied", "examining", "analyzed", "reviewed"], "reading and studying"),
    (["writing", "documented", "noted", "recorded", "wrote"], "writing and documenting"),
    (["walked", "walking", "explored", "wandered", "moved"], "walking and exploring"),
    (["discovered", "found", "uncovered", "revealed", "located"], "making a discovery"),
    (["thinking", "pondering", "contemplated", "considered"], "thinking deeply"),
    (["speaking", "talking", "explained", "discussed", "said"], "speaking and explaining"),
    (["searching", "looking", "seeking", "investigating"], "searching and investigating"),
    (["running", "rushed", "hurried", "sprinted"], "moving with urgency") ]

def extractCharacterAction (text : String) : String :=
  firstMatchLabel actionPatterns "standing thoughtfully" text

/-- The ordered `scenePatterns` list of `extractSceneDescription`. -/
def scenePatterns : List (List String × String) :=
  [ (["library", "libraries", "books", "manuscript", "shelves"],
      "ancient library with towering bookshelves and scrolls"),
    (["laboratory", "lab", "research", "scientific", "equipment"],
      "modern research laboratory with advanced equipment"),
    (["office", "workplace", "desk", "computer"],
      "professional office with modern technology"),
    (["outdoor", "forest", "nature", "mountain", "landscape"],
      "beautiful natural outdoor environment"),
    (["city", "urban", "street", "building", "downtown"],
      "vibrant urban cityscape"),
    (["home", "house", "room", "indoor", "inside"],
      "comfortable indoor living space") ]

def extractSceneDescription (text : String) : String :=
  firstMatchLabel scenePatterns "thoughtfully composed indoor setting" text

/-- The ordered `tonePatterns` list of `extractEmotionalTone`. -/
def tonePatterns : List (List String × String) :=
  [ (["mysterious", "enigmatic", "hidden", "secret", "unknown"], "mysterious and intriguing"),
    (["exciting", "thrilling", "amazing", "wonderful", "discovery"], "exciting and dynamic"),
    (["peaceful", "calm", "serene", "gentle", "quiet"], "peaceful and serene"),
    (["dramatic", "intense", "important", "crucial", "significant"], "dramatic and intense"),
    (["scholarly", "academic", "intellectual", "scientific"], "scholarly and intellectual"),
    (["hopeful", "optimistic", "positive", "bright"], "hopeful and optimistic") ]

def extractEmotionalTone (text : String) : String :=
  firstMatchLabel tonePatterns "thoughtful and engaging" text

example : extractCharacterAction "She was reading in the hall" = "reading and studying" := by decide
example : extractCharacterAction "nothing to see" = "standing thoughtfully" := by decide
example : extractEmotionalTone "A hidden, exciting place" = "mysterious and intriguing" := by decide

/-! ### More string primitives (kernel-computable models of the JS library
functions used by the pipeline) -/

/-- First `n` characters (JS `substring(0, n)`). -/
def takeStr (s : String) (n : Nat) : String := String.mk (s.toList.take n)

/-- The whitespace class trimmed by JS `trim()` (ASCII part). -/
def isWhite (c : Char) : Bool :=
  c == ' ' || c == '\t' || c == '\n' || c == '\r' || c == '\x0b' || c == '\x0c'

/-- JS `trim()`. -/
def trimStr (s : String) : String :=
  String.mk (((s.toList.dropWhile isWhite).reverse.dropWhile isWhite).reverse)

/-- Left-to-right scan for JS `String.prototype.split(sep)` with a non-empty
separator; `fuel` bounds the recursion and is instantiated with the input
length, which every step decreases by at least one. -/
def splitOnSepAux (sep : List Char) : Nat → List Char → List Char → List (List Char)
  | _, acc, [] => [acc.reverse]
  | 0, acc, rest => [acc.reverse ++ rest]
  | fuel + 1, acc, c :: cs =>
    if !sep.isEmpty && charsStartWith sep (c :: cs) then
      acc.reverse :: splitOnSepAux sep fuel [] ((c :: cs).drop sep.length)
    else
      splitOnSepAux sep fuel (c :: acc) cs

/-- JS `s.split(sep)` for non-empty string separators. -/
def splitOnStr (s sep : String) : List String :=
  (splitOnSepAux sep.toList s.toList.length [] s.toList).map String.mk

/-- JS `array.join(sep)`. -/
def joinSep (sep : String) : List String → String
  | [] => ""
  | [x] => x
  | x :: y :: rest => x ++ sep ++ joinSep sep (y :: rest)

example : splitOnStr "a\n\nb\n\n\n\nc" "\n\n" = ["a", "b", "", "c"] := by decide
example : splitOnStr "" "\n\n" = [""] := by decide
example : trimStr "  hi\n" = "hi" := by decide

/-! ### `intelligentStoryPagination` -/

/-- `intelligentStoryPagination`: split on blank lines, drop blank paragraphs,
group `ceil(paragraphs / targetPages)` paragraphs per page, drop pages that
are blank after joining. -/
def intelligentStoryPagination (content : String) (targetPages : Nat) : List String :=
  let paragraphs := (splitOnStr content "\n\n").filter (fun p => trimStr p != "")
  let paragraphsPerPage := (paragraphs.length + targetPages - 1) / targetPages
  ((List.range targetPages).map (fun i =>
      joinSep "\n\n" ((paragraphs.drop (i * paragraphsPerPage)).take paragraphsPerPage))).filter
    (fun page => trimStr page != "")

example : intelligentStoryPagination "One.\n\nTwo.\n\nThree." 5 = ["One.", "Two.", "Three."] := by
  decide
example : intelligentStoryPagination "" 5 = [] := by decide
example : intelligentStoryPagination "One.\n\nTwo.\n\nThree." 2 = ["One.\n\nTwo.", "Three."] := by
  decide

/-! ### Image generation: simulated tier of `GoogleProductionStorybook` -/

/-- `buildCharacterDescription`. -/
def buildCharacterDescription (profile : GoogleProductionCharacterProfile) : String :=
  "Maya, a " ++ profile.facialFeatures.age ++ " " ++ profile.facialFeatures.gender ++
    " character with " ++ profile.facialFeatures.hairColor ++ " hair, " ++
    profile.facialFeatures.eyeColor ++ " eyes, and " ++ profile.facialFeatures.skinTone ++
    " skin tone in " ++ artStyleStr profile.artStyle ++ " style"

/-- `generateUniqueImageUrl`: category keyed by keywords of the prompt, then a
templated simulated service URL. -/
def generateUniqueImageUrl (prompt : String) (profile : GoogleProductionCharacterProfile)
    (pageNumber : Nat) : String :=
  let characterSeed := profile.characterId
  let actionHash := hashHex prompt
  let visualStyle := artStyleStr profile.artStyle
  let urlFor := fun (category : String) =>
    "https://imagen.googleapis.com/v3/character/" ++ characterSeed ++ "/" ++ category ++ "/" ++
      actionHash ++ "?style=" ++ visualStyle ++ "&consistency=high&page=" ++ toString pageNumber
  let promptLower := lowerStr prompt
  if strContains promptLower "reading" || strContains promptLower "studying" ||
      strContains promptLower "library" then urlFor "reading"
  else if strContains promptLower "writing" || strContains promptLower "documenting" then
    urlFor "writing"
  else if strContains promptLower "examining" || strContains promptLower "investigating" then
    urlFor "examining"
  else if strContains promptLower "laboratory" || strContains promptLower "research" then
    urlFor "research"
  else if strContains promptLower "speaking" || strContains promptLower "explaining" then
    urlFor "speaking"
  else if strContains promptLower "moving" || strContains promptLower "walking" then
    urlFor "moving"
  else urlFor "thoughtful"

/-- Parameters of `generateCharacterConsistentImage` (destructured `params`). -/
structure GenParams where
  characterProfile : GoogleProductionCharacterProfile
  characterAction : String
  sceneDescription : String
  emotionalTone : String
  pageNumber : Nat
deriving Repr, DecidableEq

/-- `generateCharacterConsistentImageFallback` — the deterministic simulated
tier: detailed prompt, simulated URL, and the fixed consistency score `0.95`
(`// High consistency in production`). -/
def generateCharacterConsistentImageFallback (params : GenParams) : GenImageData :=
  let characterDescription := buildCharacterDescription params.characterProfile
  let prompt := "High-quality " ++ artStyleStr params.characterProfile.artStyle ++
    " illustration of " ++ characterDescription ++ " " ++ params.characterAction ++ " in " ++
    params.sceneDescription ++ ". " ++ params.emotionalTone ++
    " atmosphere. Professional digital art, consistent character design, detailed composition, vibrant colors."
  { prompt
    imageUrl := generateUniqueImageUrl prompt params.characterProfile params.pageNumber
    characterConsistencyScore := 95 / 100 }

/-- Outcome of one `backendImageService.generateCharacterImage(...)` call:
either it throws, or it resolves to `null`/a result record. -/
def BackendCall : Type := Except String (Option BackendGenerationResult)

/-- The `try` block of `generateCharacterConsistentImage`: consult the backend
when a backend character profile exists; a `null`-ish backend result falls
through to the simulated tier; an exception propagates out of the block. -/
def generateCharacterConsistentImageTry (st : SBState) (params : GenParams)
    (call : BackendCall) : Except String GenImageData :=
  match st.backendCharacterProfileId with
  | some _ =>
    match call with
    | .error e => .error e
    | .ok (some r) =>
      .ok { prompt := r.prompt, imageUrl := r.imageUrl
            characterConsistencyScore := r.consistencyScore }
    | .ok none => .ok (generateCharacterConsistentImageFallback params)
  | none => .ok (generateCharacterConsistentImageFallback params)

/-- `generateCharacterConsistentImage`: the `try` block above wrapped in the
`catch` that degrades any failure to the simulated tier. -/
def generateCharacterConsistentImage (st : SBState) (params : GenParams)
    (call : BackendCall) : Except String GenImageData :=
  match generateCharacterConsistentImageTry st params call with
  | .ok r => .ok r
  | .error _ => .ok (generateCharacterConsistentImageFallback params)

/-! ### The page loop (`generateStoryPages`) -/

/-- The sequential `for` loop of `generateStoryPages`: one page per text
segment, pages numbered from `startIdx + 1`. -/
def buildStoryPages (st : SBState) (profile : GoogleProductionCharacterProfile)
    (backend : Nat → BackendCall) :
    List String → Nat → Except String (List GoogleStoryPage)
  | [], _ => .ok []
  | textContent :: rest, index => do
    let characterAction := extractCharacterAction textContent
    let sceneDescription := extractSceneDescription textContent
    let emotionalTone := extractEmotionalTone textContent
    let generatedImageData ← generateCharacterConsistentImage st
      { characterProfile := profile, characterAction, sceneDescription, emotionalTone
        pageNumber := index + 1 } (backend index)
    let tail ← buildStoryPages st profile backend rest (index + 1)
    .ok ({ pageNumber := index + 1, textContent, characterAction, sceneDescription
           emotionalTone, generatedImageData } :: tail)

/-- `generateStoryPages`: throws `'Character profile must be analyzed first'`
when no profile has been stored, otherwise paginates and runs the page loop. -/
def generateStoryPages (st : SBState) (storyContent : String) (targetPages : Nat)
    (backend : Nat → BackendCall) : Except String (List GoogleStoryPage) :=
  match st.characterProfile with
  | none => .error "Character profile must be analyzed first"
  | some profile =>
    buildStoryPages st profile backend (intelligentStoryPagination storyContent targetPages) 0

/-! ### The DALL-E tier (`ai-image-generation.ts`) -/

/-- `AIImageGenerationRequest` (the `style` union is kept as a string since it
is only interpolated). -/
structure AIImageGenerationRequest where
  characterImageUrl : String
  characterDescription : String
  action : String
  scene : String
  mood : String
  style : String
  pageNumber : Nat
deriving Repr, DecidableEq

structure AIImageGenerationResult where
  imageUrl : String
  prompt : String
  characterConsistencyScore : ℚ
  generationTime : Nat
deriving Repr, DecidableEq

/-- `getMoodDescription`: fixed lookup with default `'Thoughtful and
engaging'`. -/
def getMoodDescription (mood : String) : String :=
  let moodMap : List (String × String) :=
    [ ("mysterious and intriguing", "Mysterious and intriguing with dramatic lighting and shadows"),
      ("exciting and dynamic", "Exciting and dynamic with bright, energetic colors"),
      ("peaceful and serene", "Peaceful and serene with soft, warm lighting"),
      ("dramatic and intense", "Dramatic and intense with bold contrasts"),
      ("scholarly and intellectual", "Scholarly and intellectual with refined, academic atmosphere"),
      ("thoughtful and engaging", "Thoughtful and engaging with contemplative mood") ]
  match moodMap.lookup mood with
  | some d => d
  | none => "Thoughtful and engaging"

/-- `createDetailedPromptForDALLE`. -/
def createDetailedPromptForDALLE (request : AIImageGenerationRequest) : String :=
  let basePrompt := request.style ++ " style digital illustration of " ++
    request.characterDescription ++ " " ++ request.action ++ " in " ++ request.scene
  let moodDescription := getMoodDescription request.mood
  let qualitySpecs := "High quality digital art, detailed character design, vibrant colors, professional composition, consistent character appearance throughout"
  basePrompt ++ ". " ++ moodDescription ++ " atmosphere. " ++ qualitySpecs ++
    ". The character should maintain the same facial features, hair style, and overall appearance as described."

/-- `getFallbackImageUrl`: contextual stock assets keyed on action/scene. -/
def getFallbackImageUrl (request : AIImageGenerationRequest) : String :=
  if strContains request.action "reading" || strContains request.action "studying" then
    "https://images.unsplash.com/photo-1481627834876-b7833e8f5570?w=1024&h=1024&fit=crop&auto=format"
  else if strContains request.action "writing" || strContains request.action "documenting" then
    "https://images.unsplash.com/photo-1513475382585-d06e58bcb0e0?w=1024&h=1024&fit=crop&auto=format"
  else if strContains request.action "examining" || strContains request.action "investigating" then
    "https://images.unsplash.com/photo-1522202176988-66273c2fd55f?w=1024&h=1024&fit=crop&auto=format"
  else if strContains request.scene "laboratory" || strContains request.scene "research" then
    "https://images.unsplash.com/photo-1582719478250-c89cae4dc85b?w=1024&h=1024&fit=crop&auto=format"
  else if strContains request.scene "library" || strContains request.scene "books" then
    "https://images.unsplash.com/photo-1507003211169-0a1dd7228f2d?w=1024&h=1024&fit=crop&auto=format"
  else
    "https://images.unsplash.com/photo-1494790108755-2616c471768c?w=1024&h=1024&fit=crop&auto=format"

/-- Outcome of the `openai.images.generate` call: an exception, or a response
whose `data?.[0]?.url` may be absent. -/
def DalleOutcome : Type := Except String (Option String)

/-- The `try` block of `generateCharacterImageWithDALLE`: a missing URL in the
response is itself thrown (`'No image URL returned from DALL-E'`). -/
def dalleTryBlock (request : AIImageGenerationRequest) (outcome : DalleOutcome)
    (elapsedMs : Nat) : Except String AIImageGenerationResult :=
  let detailedPrompt := createDetailedPromptForDALLE request
  match outcome with
  | .error e => .error e
  | .ok none => .error "No image URL returned from DALL-E"
  | .ok (some imageUrl) =>
    .ok { imageUrl, prompt := detailedPrompt, characterConsistencyScore := 95 / 100
          generationTime := elapsedMs }

/-- `generateCharacterImageWithDALLE`: the `try` block wrapped in the catch
that falls back to a contextual stock image with score `0.7`. -/
def generateCharacterImageWithDALLE (request : AIImageGenerationRequest)
    (outcome : DalleOutcome) (elapsedMs : Nat) : Except String AIImageGenerationResult :=
  match dalleTryBlock request outcome elapsedMs with
  | .ok r => .ok r
  | .error _ =>
    .ok { imageUrl := getFallbackImageUrl request
          prompt := createDetailedPromptForDALLE request
          characterConsistencyScore := 7 / 10
          generationTime := elapsedMs }

/-! ### Placeholder cycling (`generatePageIllustration`, illustration module) -/

/-- `CharacterAnalysis` of the illustration module (`style`/`mood` unions kept
as strings; the optional `features` fields in declaration order). -/
structure CharacterAnalysis where
  dominantColors : List String
  style : String
  mood : String
  featureHairColor : Option String
  featureClothing : Option String
  featureSetting : Option String
deriving Repr, DecidableEq

def illustrationSetsAdventure : List (String × List String) :=
  [ ("cheerful",
      [ "https://images.unsplash.com/photo-1506905925346-21bda4d32df4?w=800&h=600&fit=crop&auto=format",
        "https://images.unsplash.com/photo-1551632811-561732d1e306?w=800&h=600&fit=crop&auto=format",
        "https://images.unsplash.com/photo-1469474968028-56623f02e42e?w=800&h=600&fit=crop&auto=format",
        "https://images.unsplash.com/photo-1578662996442-48f60103fc96?w=800&h=600&fit=crop&auto=format" ]),
    ("serious",
      [ "https://images.unsplash.com/photo-1506905925346-21bda4d32df4?w=800&h=600&fit=crop&auto=format",
        "https://images.unsplash.com/photo-1419833479618-c595710936ec?w=800&h=600&fit=crop&auto=format",
        "https://images.unsplash.com/photo-1551632811-561732d1e306?w=800&h=600&fit=crop&auto=format" ]) ]

def illustrationSetsMystery : List (String × List String) :=
  [ ("mysterious",
      [ "https://images.unsplash.com/photo-1507003211169-0a1dd7228f2d?w=800&h=600&fit=crop&auto=format",
        "https://images.unsplash.com/photo-1481627834876-b7833e8f5570?w=800&h=600&fit=crop&auto=format",
        "https://images.unsplash.com/photo-1544947950-fa07a98d237f?w=800&h=600&fit=crop&auto=format" ]),
    ("serious",
      [ "https://images.unsplash.com/photo-1481627834876-b7833e8f5570?w=800&h=600&fit=crop&auto=format",
        "https://images.unsplash.com/photo-1507003211169-0a1dd7228f2d?w=800&h=600&fit=crop&auto=format" ]) ]

def illustrationSetsFantasy : List (String × List String) :=
  [ ("cheerful",
      [ "https://images.unsplash.com/photo-1544947950-fa07a98d237f?w=800&h=600&fit=crop&auto=format",
        "https://images.unsplash.com/photo-1507003211169-0a1dd7228f2d?w=800&h=600&fit=crop&auto=format",
        "https://images.unsplash.com/photo-1481627834876-b7833e8f5570?w=800&h=600&fit=crop&auto=format" ]) ]

/-- `illustrationSets[genre] || illustrationSets.adventure`. -/
def genreSetFor (genre : String) : List (String × List String) :=
  if genre == "adventure" then illustrationSetsAdventure
  else if genre == "mystery" then illustrationSetsMystery
  else if genre == "fantasy" then illustrationSetsFantasy
  else illustrationSetsAdventure

/-- Mood-set resolution of `generatePageIllustration`: `genreSet[mood]`, then
the first mood of the genre set, then the hard-coded default asset. -/
def resolveMoodSet (character : CharacterAnalysis) (genre : String) : List String :=
  let genreSet := genreSetFor genre
  match genreSet.lookup character.mood with
  | some moodSet => moodSet
  | none =>
    match genreSet with
    | [] => ["https://images.unsplash.com/photo-1544947950-fa07a98d237f?w=800&h=600&fit=crop&auto=format"]
    | (_, firstSet) :: _ => firstSet

/-- The base-asset selection of `generatePageIllustration`:
`moodSet[(pageNumber - 1) % moodSet.length]`. -/
def selectIllustrationBase (character : CharacterAnalysis) (genre : String)
    (pageNumber : Nat) : String :=
  let moodSet := resolveMoodSet character genre
  moodSet.getD ((pageNumber - 1) % moodSet.length) ""

/-- Hex digit, uppercase (percent-encoding). -/
def hexDigitUpper (n : Nat) : Char :=
  if n < 10 then Char.ofNat ('0'.toNat + n) else Char.ofNat ('A'.toNat + (n - 10))

/-- `application/x-www-form-urlencoded` escaping of one character, as
`URLSearchParams` performs it. -/
def formEncodeChar (c : Char) : String :=
  if c.isAlphanum || c == '*' || c == '-' || c == '.' || c == '_' then String.mk [c]
  else if c == ' ' then "+"
  else String.mk (((String.mk [c]).toUTF8.toList).foldr
    (fun b acc => '%' :: hexDigitUpper (b.toNat / 16) :: hexDigitUpper (b.toNat % 16) :: acc) [])

/-- `URLSearchParams`-style encoding of a whole value. -/
def formEncode (s : String) : String :=
  String.join (s.toList.map formEncodeChar)

/-- `JSON.stringify` of the `features` object (fields in declaration order,
`undefined` fields omitted; the string values used contain no escapes). -/
def featuresJson (character : CharacterAnalysis) : String :=
  let fields :=
    [ ("hairColor", character.featureHairColor),
      ("clothing", character.featureClothing),
      ("setting", character.featureSetting) ].filterMap
      (fun kv => kv.2.map (fun v => "\"" ++ kv.1 ++ "\":\"" ++ v ++ "\""))
  "\x7b" ++ joinSep "," fields ++ "\x7d"

/-- The `URLSearchParams` query string appended by `generatePageIllustration`
(insertion order: mood, style, page, colors, features). -/
def illustrationParams (character : CharacterAnalysis) (pageNumber : Nat) : String :=
  "character-mood=" ++ formEncode character.mood ++
    "&character-style=" ++ formEncode character.style ++
    "&page=" ++ formEncode (toString pageNumber) ++
    "&colors=" ++ formEncode (joinSep "," character.dominantColors) ++
    "&features=" ++ formEncode (featuresJson character)

/-- `generatePageIllustration`: cycled base asset plus the character
consistency parameters.  (The `pageContext` argument of the source is unused
by its body and omitted here.) -/
def generatePageIllustration (character : CharacterAnalysis) (genre : String)
    (pageNumber : Nat) : String :=
  selectIllustrationBase character genre pageNumber ++ "&" ++
    illustrationParams character pageNumber

/-! ### Translation injection (`addTranslationsToText`) -/

/-- Case-insensitive version of `charsStartWith` (a `/…/i` literal match). -/
def ciStartsWith : List Char → List Char → Bool
  | [], _ => true
  | _ :: _, [] => false
  | a :: as, b :: bs => (lowerChar a == lowerChar b) && ciStartsWith as bs

/-- Global case-insensitive replacement of the literal `pat` by `repl`
(`text.replace(new RegExp(escaped, 'gi'), repl)` with a fixed replacement
string).  `fuel` is instantiated with the input length; every step consumes at
least one input character when `pat` is non-empty. -/
def replaceAllCI (pat repl : List Char) : Nat → List Char → List Char
  | _, [] => []
  | 0, s => s
  | fuel + 1, c :: cs =>
    if !pat.isEmpty && ciStartsWith pat (c :: cs) then
      repl ++ replaceAllCI pat repl fuel ((c :: cs).drop pat.length)
    else
      c :: replaceAllCI pat repl fuel cs

/-- JS `\w` (`[A-Za-z0-9_]`). -/
def isWordChar (c : Char) : Bool := c.isAlpha || c.isDigit || c == '_'

/-- Is there a `\b` boundary between an optional left character and an
optional right character (`none` = outside the string, a non-word context)? -/
def wordBoundaryBetween (left right : Option Char) : Bool :=
  (match left with | some c => isWordChar c | none => false) !=
    (match right with | some c => isWordChar c | none => false)

/-- The second replacement pass of `addTranslationsToText`:
`translatedText.replace(/\bword\b/gi, match => …)`, where the callback leaves
the match alone when `guardText` (the string the replace is running on)
already contains `**match**`, and otherwise appends ` (translation)`.  `prev`
is the character to the left of the scan position; `fuel` is instantiated with
the input length. -/
def replaceWordCI (w t : List Char) (guardText : List Char) :
    Nat → Option Char → List Char → List Char
  | _, _, [] => []
  | 0, _, s => s
  | fuel + 1, prev, c :: cs =>
    let matched := (c :: cs).take w.length
    if !w.isEmpty && ciStartsWith w (c :: cs) &&
        wordBoundaryBetween prev (some c) &&
        wordBoundaryBetween (matched.getLast?) ((c :: cs).get? w.length) then
      if charsContain ('*' :: '*' :: matched ++ ['*', '*']) guardText then
        matched ++ replaceWordCI w t guardText fuel (matched.getLast?) ((c :: cs).drop w.length)
      else
        matched ++ (' ' :: '(' :: t ++ [')']) ++
          replaceWordCI w t guardText fuel (matched.getLast?) ((c :: cs).drop w.length)
    else
      c :: replaceWordCI w t guardText fuel (some c) cs

/-- Both replacement passes for one vocabulary word: first every `**word**`
(case-insensitive) becomes `**word** (translation)`, then plain
word-boundary occurrences are annotated unless the word already occurs
emphasized in the (post-first-pass) text. -/
def addTranslationForWord (w t : String) (s : String) : String :=
  let bold := ('*' :: '*' :: w.toList ++ ['*', '*'] : List Char)
  let boldRepl := ('*' :: '*' :: w.toList ++ ['*', '*'] ++ (' ' :: '(' :: t.toList ++ [')']))
  let step1 := replaceAllCI bold boldRepl s.toList.length s.toList
  String.mk (replaceWordCI w.toList t.toList step1 step1.length none step1)

/-- The `'es'` entry of the static translation dictionary. -/
def esTranslations : List (String × String) :=
  [ ("catalyst", "catalizador"), ("ambiguous", "ambiguo"), ("paradigm", "paradigma"),
    ("synthesis", "síntesis"), ("phenomenon", "fenómeno"), ("comprehensive", "integral"),
    ("empirical", "empírico"), ("hypothesis", "hipótesis"), ("substantial", "sustancial"),
    ("unprecedented", "sin precedentes"), ("configuration", "configuración"),
    ("correlation", "correlación"), ("inevitable", "inevitable"), ("fluctuation", "fluctuación"),
    ("plausible", "plausible"), ("coherent", "coherente"), ("eloquent", "elocuente"),
    ("meticulous", "meticuloso"), ("pragmatic", "pragmático"), ("sophisticated", "sofisticado"),
    ("perpetual", "perpetuo"), ("intricate", "intrincado"), ("autonomous", "autónomo"),
    ("resilient", "resistente"), ("innovative", "innovador"), ("dynamic", "dinámico"),
    ("strategic", "estratégico"), ("fundamental", "fundamental"), ("abundant", "abundante"),
    ("courage", "valor") ]

/-- The `'fr'` entry of the static translation dictionary. -/
def frTranslations : List (String × String) :=
  [ ("catalyst", "catalyseur"), ("ambiguous", "ambigu"), ("paradigm", "paradigme"),
    ("synthesis", "synthèse"), ("phenomenon", "phénomène"), ("comprehensive", "complet"),
    ("empirical", "empirique"), ("hypothesis", "hypothèse"), ("substantial", "substantiel"),
    ("unprecedented", "sans précédent"), ("configuration", "configuration"),
    ("correlation", "corrélation"), ("inevitable", "inévitable"), ("fluctuation", "fluctuation"),
    ("plausible", "plausible"), ("coherent", "cohérent"), ("eloquent", "éloquent"),
    ("meticulous", "méticuleux"), ("pragmatic", "pragmatique"), ("sophisticated", "sophistiqué"),
    ("perpetual", "perpétuel"), ("intricate", "complexe"), ("autonomous", "autonome"),
    ("resilient", "résilient"), ("innovative", "innovant"), ("dynamic", "dynamique"),
    ("strategic", "stratégique"), ("fundamental", "fondamental"), ("abundant", "abondant"),
    ("courage", "courage") ]

/-- The `'de'` entry of the static translation dictionary. -/
def deTranslations : List (String × String) :=
  [ ("catalyst", "Katalysator"), ("ambiguous", "mehrdeutig"), ("paradigm", "Paradigma"),
    ("synthesis", "Synthese"), ("phenomenon", "Phänomen"), ("comprehensive", "umfassend"),
    ("empirical", "empirisch"), ("hypothesis", "Hypothese"), ("substantial", "wesentlich"),
    ("unprecedented", "beispiellos"), ("configuration", "Konfiguration"),
    ("correlation", "Korrelation"), ("inevitable", "unvermeidlich"), ("fluctuation", "Schwankung"),
    ("plausible", "plausibel"), ("coherent", "kohärent"), ("eloquent", "eloquent"),
    ("meticulous", "akribisch"), ("pragmatic", "pragmatisch"), ("sophisticated", "anspruchsvoll"),
    ("perpetual", "ewig"), ("intricate", "kompliziert"), ("autonomous", "autonom"),
    ("resilient", "widerstandsfähig"), ("innovative", "innovativ"), ("dynamic", "dynamisch"),
    ("strategic", "strategisch"), ("fundamental", "grundlegend"), ("abundant", "reichlich"),
    ("courage", "Mut") ]

/-- The `'zh'` entry of the static translation dictionary. -/
def zhTranslations : List (String × String) :=
  [ ("catalyst", "催化剂"), ("ambiguous", "模糊的"), ("paradigm", "范式"),
    ("synthesis", "综合"), ("phenomenon", "现象"), ("comprehensive", "全面的"),
    ("empirical", "经验的"), ("hypothesis", "假设"), ("substantial", "实质的"),
    ("unprecedented", "前所未有的"), ("configuration", "配置"), ("correlation", "相关性"),
    ("inevitable", "不可避免的"), ("fluctuation", "波动"), ("plausible", "合理的"),
    ("coherent", "连贯的"), ("eloquent", "雄辩的"), ("meticulous", "细致的"),
    ("pragmatic", "实用的"), ("sophisticated", "复杂的"), ("perpetual", "永续的"),
    ("intricate", "错综复杂的"), ("autonomous", "自主的"), ("resilient", "有韧性的"),
    ("innovative", "创新的"), ("dynamic", "动态的"), ("strategic", "战略的"),
    ("fundamental", "基本的"), ("abundant", "丰富的"), ("courage", "勇气") ]

/-- The `'ja'` entry of the static translation dictionary. -/
def jaTranslations : List (String × String) :=
  [ ("catalyst", "触媒"), ("ambiguous", "曖昧な"), ("paradigm", "パラダイム"),
    ("synthesis", "合成"), ("phenomenon", "現象"), ("comprehensive", "包括的な"),
    ("empirical", "経験的な"), ("hypothesis", "仮説"), ("substantial", "実質的な"),
    ("unprecedented", "前例のない"), ("configuration", "構成"), ("correlation", "相関"),
    ("inevitable", "避けられない"), ("fluctuation", "変動"), ("plausible", "もっともらしい"),
    ("coherent", "一貫した"), ("eloquent", "雄弁な"), ("meticulous", "細心な"),
    ("pragmatic", "実用的な"), ("sophisticated", "洗練された"), ("perpetual", "永続的な"),
    ("intricate", "複雑な"), ("autonomous", "自律的な"), ("resilient", "回復力のある"),
    ("innovative", "革新的な"), ("dynamic", "動的な"), ("strategic", "戦略的な"),
    ("fundamental", "基本的な"), ("abundant", "豊富な"), ("courage", "勇気") ]

/-- The locale-keyed `translations` object. -/
def translationsDict : List (String × List (String × String)) :=
  [ ("es", esTranslations), ("fr", frTranslations), ("de", deTranslations),
    ("zh", zhTranslations), ("ja", jaTranslations) ]

/-- `addTranslationsToText`: no-op for `'none'`/empty/unknown locales,
otherwise both replacement passes for each vocabulary word in order. -/
def addTranslationsToText (text : String) (vocabularyWords : List String)
    (translationLocale : String) : String :=
  if translationLocale == "none" || translationLocale == "" then text
  else
    match translationsDict.lookup translationLocale with
    | none => text
    | some targetLangDict =>
      vocabularyWords.foldl (fun translatedText word =>
        match targetLangDict.lookup (lowerStr word) with
        | none => translatedText
        | some t => addTranslationForWord word t translatedText) text

example :
    addTranslationsToText "The **resilient** fox" ["resilient"] "es" =
      "The **resilient** (resistente) fox" := by decide
example :
    addTranslationsToText "a resilient fox" ["resilient"] "es" =
      "a resilient (resistente) fox" := by decide
example :
    addTranslationsToText "resilient and **resilient**" ["resilient"] "es" =
      "resilient and **resilient** (resistente)" := by decide
example : addTranslationsToText "any **resilient** text" ["resilient"] "none" =
    "any **resilient** text" := by decide

/-! ## Helper lemmas -/

/-- The orchestrator's catch-all makes every outcome an `ok`. -/
lemma generateCharacterConsistentImage_isOk (st : SBState) (params : GenParams)
    (call : BackendCall) :
    ∃ r, generateCharacterConsistentImage st params call = .ok r := by
  unfold generateCharacterConsistentImage
  split
  · exact ⟨_, rfl⟩
  · exact ⟨_, rfl⟩

/-- The DALL-E wrapper's catch-all makes every outcome an `ok`. -/
lemma generateCharacterImageWithDALLE_isOk (request : AIImageGenerationRequest)
    (outcome : DalleOutcome) (elapsedMs : Nat) :
    ∃ r, generateCharacterImageWithDALLE request outcome elapsedMs = .ok r := by
  unfold generateCharacterImageWithDALLE
  split
  · exact ⟨_, rfl⟩
  · exact ⟨_, rfl⟩

/-- The sequential page loop never errors, since each page's image generation
never errors. -/
lemma buildStoryPages_isOk (st : SBState) (profile : GoogleProductionCharacterProfile)
    (backend : Nat → BackendCall) :
    ∀ (texts : List String) (index : Nat),
      ∃ pages, buildStoryPages st profile backend texts index = .ok pages := by
  intro texts
  induction texts with
  | nil => exact fun index => ⟨[], rfl⟩
  | cons t rest ih =>
    intro index
    obtain ⟨img, himg⟩ := generateCharacterConsistentImage_isOk st
      { characterProfile := profile, characterAction := extractCharacterAction t
        sceneDescription := extractSceneDescription t
        emotionalTone := extractEmotionalTone t, pageNumber := index + 1 } (backend index)
    obtain ⟨tail, htail⟩ := ih (index + 1)
    refine ⟨{ pageNumber := index + 1, textContent := t
              characterAction := extractCharacterAction t
              sceneDescription := extractSceneDescription t
              emotionalTone := extractEmotionalTone t
              generatedImageData := img } :: tail, ?_⟩
    simp only [buildStoryPages, himg, htail]
    rfl

/-- Splitting the empty string yields one blank paragraph, so pagination of
empty story text yields no pages, whatever the page count. -/
lemma pagination_of_empty (k : Nat) : intelligentStoryPagination "" k = [] := by
  unfold intelligentStoryPagination
  have h0 : (splitOnStr "" "\n\n").filter (fun p => trimStr p != "") = [] := rfl
  rw [h0]
  apply List.filter_eq_nil_iff.mpr
  intro a ha
  simp only [List.mem_map] at ha
  obtain ⟨i, -, rfl⟩ := ha
  simp [joinSep, trimStr]

/-- Zero requested pages paginate to no pages. -/
lemma pagination_of_zero (content : String) : intelligentStoryPagination content 0 = [] := rfl

/-! ## Claims -/

/-- Claim C1: for every request — any prompt, profile and scene input,
including the empty prompt — the image-generation operations return an `ok`
result and never propagate an exception: the DALL-E tier catches both a
thrown call and a missing URL, and the orchestrator catches any backend
failure, degrading to its deterministic fallback. -/
theorem generation_never_throws :
    (∀ (request : AIImageGenerationRequest) (outcome : DalleOutcome) (elapsedMs : Nat),
        ∃ r, generateCharacterImageWithDALLE request outcome elapsedMs = .ok r) ∧
    (∀ (st : SBState) (params : GenParams) (call : BackendCall),
        ∃ r, generateCharacterConsistentImage st params call = .ok r) :=
  ⟨generateCharacterImageWithDALLE_isOk, generateCharacterConsistentImage_isOk⟩

/-- Claim C2: profiling the same locator twice — the second time from the
state left by the first call — returns the same `characterId` and the same
visual embedding; the profile is a function of the locator alone (it does not
depend on the prior state), and the embedding has exactly 512 entries. -/
theorem profile_deterministic (L : String) (st st' : SBState) :
    ((analyzeCharacterImageFallback (analyzeCharacterImageFallback st L).2 L).1.characterId =
        (analyzeCharacterImageFallback st L).1.characterId) ∧
    ((analyzeCharacterImageFallback (analyzeCharacterImageFallback st L).2 L).1.visualEmbedding =
        (analyzeCharacterImageFallback st L).1.visualEmbedding) ∧
    ((analyzeCharacterImageFallback st' L).1 = (analyzeCharacterImageFallback st L).1) ∧
    ((analyzeCharacterImageFallback st L).1.visualEmbedding.length = 512) := by
  refine ⟨rfl, rfl, rfl, ?_⟩
  simp [analyzeCharacterImageFallback, generateVisualEmbedding]

/-- Claim C3 (counterexample): with a profile analyzed, empty story text and a
zero page count are not rejected — `generateStoryPages` returns `ok []`
instead of surfacing a precondition violation. -/
theorem malformed_input_not_rejected :
    generateStoryPages (analyzeCharacterImageFallback initialSBState "ref.png").2 "" 5
        (fun _ => Except.ok none) = Except.ok ([] : List GoogleStoryPage) ∧
    generateStoryPages (analyzeCharacterImageFallback initialSBState "ref.png").2
        "The story." 0 (fun _ => Except.ok none) = Except.ok ([] : List GoogleStoryPage) :=
  ⟨rfl, rfl⟩

/-- Claim C3 (amended): the pipeline performs no up-front validation of the
story text or the page count: with a profile present, empty story text or a
zero requested page count produce the empty page list without any error; the
only precondition surfaced by `generateStoryPages` is the missing character
profile. -/
theorem malformed_input_amended (st : SBState) (profile : GoogleProductionCharacterProfile)
    (h : st.characterProfile = some profile) (storyContent : String) (targetPages : Nat)
    (backend : Nat → BackendCall) :
    generateStoryPages st "" targetPages backend = .ok [] ∧
    generateStoryPages st storyContent 0 backend = .ok [] := by
  constructor
  · simp [generateStoryPages, h, pagination_of_empty, buildStoryPages]
  · simp [generateStoryPages, h, pagination_of_zero, buildStoryPages]

theorem malformed_input_amended_witness :
    ((analyzeCharacterImageFallback initialSBState "ref.png").2.characterProfile =
        some (analyzeCharacterImageFallback initialSBState "ref.png").1) ∧
    (generateStoryPages (analyzeCharacterImageFallback initialSBState "ref.png").2 ""
        7 (fun _ => Except.ok none) = .ok [] ∧
      generateStoryPages (analyzeCharacterImageFallback initialSBState "ref.png").2
        "A tale." 0 (fun _ => Except.ok none) = .ok []) :=
  ⟨rfl, malformed_input_amended _ _ rfl "A tale." 7 _⟩

/-- A concrete `params` record (profile from a sample locator, an action, a
scene and a tone from the extractors' vocabularies, page 1). -/
def sampleParams : GenParams :=
  { characterProfile := (analyzeCharacterImageFallback initialSBState "ref.png").1
    characterAction := "reading and studying"
    sceneDescription := "ancient library with towering bookshelves and scrolls"
    emotionalTone := "mysterious and intriguing"
    pageNumber := 1 }

/-- Claim C4 (counterexample): the deterministic simulated tier of
`GoogleProductionStorybook` attaches the consistency score `0.95`, not the
claimed `0.85`, as evaluation at a concrete input shows. -/
theorem simulated_tier_score_is_095 :
    (generateCharacterConsistentImageFallback sampleParams).characterConsistencyScore = 95 / 100 ∧
    (generateCharacterConsistentImageFallback sampleParams).characterConsistencyScore ≠ 85 / 100 := by
  refine ⟨rfl, ?_⟩
  rw [show (generateCharacterConsistentImageFallback sampleParams).characterConsistencyScore =
      95 / 100 from rfl]
  norm_num

/-- Claim C4 (amended): every tier's score is fixed and lies in `[0, 1]`: the
DALL-E tier returns `0.95` when the backend succeeds and `0.7` on its fixed
fallback (thrown call or missing URL), and the deterministic simulated tier of
`GoogleProductionStorybook` returns `0.95` (not `0.85`). -/
theorem tier_consistency_scores :
    (∀ (request : AIImageGenerationRequest) (url : String) (elapsedMs : Nat),
        generateCharacterImageWithDALLE request (Except.ok (some url)) elapsedMs =
          .ok { imageUrl := url, prompt := createDetailedPromptForDALLE request
                characterConsistencyScore := 95 / 100, generationTime := elapsedMs }) ∧
    (∀ (request : AIImageGenerationRequest) (msg : String) (elapsedMs : Nat),
        generateCharacterImageWithDALLE request (Except.error msg) elapsedMs =
          .ok { imageUrl := getFallbackImageUrl request
                prompt := createDetailedPromptForDALLE request
                characterConsistencyScore := 7 / 10, generationTime := elapsedMs }) ∧
    (∀ (request : AIImageGenerationRequest) (elapsedMs : Nat),
        generateCharacterImageWithDALLE request (Except.ok none) elapsedMs =
          .ok { imageUrl := getFallbackImageUrl request
                prompt := createDetailedPromptForDALLE request
                characterConsistencyScore := 7 / 10, generationTime := elapsedMs }) ∧
    (∀ params : GenParams,
        (generateCharacterConsistentImageFallback params).characterConsistencyScore = 95 / 100) ∧
    ((0:ℚ) ≤ 7 / 10 ∧ (7:ℚ) / 10 ≤ 1 ∧ (0:ℚ) ≤ 95 / 100 ∧ (95:ℚ) / 100 ≤ 1) := by
  refine ⟨fun _ _ _ => rfl, fun _ _ _ => rfl, fun _ _ => rfl, fun _ => rfl, ?_⟩
  norm_num

/-- Claim C10: `generateStoryPages` on a fresh generator throws
`'Character profile must be analyzed first'` for every story content and page
count; after any `analyzeCharacterImage` call it cannot fail that way — it
returns an `ok` page list. -/
theorem profile_must_be_analyzed_first :
    (∀ (storyContent : String) (targetPages : Nat) (backend : Nat → BackendCall),
        generateStoryPages initialSBState storyContent targetPages backend =
          .error "Character profile must be analyzed first") ∧
    (∀ (st : SBState) (imageUrl : String) (health : Except String Bool)
        (storyContent : String) (targetPages : Nat) (backend : Nat → BackendCall),
        ∃ pages,
          generateStoryPages (analyzeCharacterImage st imageUrl health).2 storyContent
            targetPages backend = .ok pages) := by
  refine ⟨fun _ _ _ => rfl, fun st imageUrl health storyContent targetPages backend => ?_⟩
  have h : (analyzeCharacterImage st imageUrl health).2.characterProfile =
      some (analyzeCharacterImage st imageUrl health).1 := rfl
  obtain ⟨pages, hp⟩ := buildStoryPages_isOk (analyzeCharacterImage st imageUrl health).2
    (analyzeCharacterImage st imageUrl health).1 backend
    (intelligentStoryPagination storyContent targetPages) 0
  exact ⟨pages, by simp [generateStoryPages, h, hp]⟩

/-- `find?` returns the element at the first index whose predicate holds. -/
lemma find?_of_first {α : Type} (p : α → Bool) :
    ∀ (l : List α) (i : Nat) (h : i < l.length),
      p (l.get ⟨i, h⟩) = true → (∀ a ∈ l.take i, p a = false) →
      l.find? p = some (l.get ⟨i, h⟩) := by
  intro l
  induction l with
  | nil => intro i h; simp at h
  | cons x xs ih =>
    intro i h hp hbefore
    cases i with
    | zero => exact List.find?_cons_of_pos _ hp
    | succ j =>
      have hx : p x = false := hbefore x (by simp [List.take_succ_cons])
      rw [List.find?_cons_of_neg _ (by simp [hx])]
      exact ih j (by simpa using h) hp
        (fun a ha => hbefore a (by simp [List.take_succ_cons, ha]))

/-- No match at all makes `firstMatchLabel` return the default. -/
lemma firstMatchLabel_default (rules : List (List String × String)) (dflt text : String)
    (h : ∀ r ∈ rules, matchesRule r.1 text = false) :
    firstMatchLabel rules dflt text = dflt := by
  unfold firstMatchLabel
  rw [List.find?_eq_none.mpr (fun r hr => by simp [h r hr])]

/-- A match at index `i`, with all earlier rules failing, makes
`firstMatchLabel` return rule `i`'s label. -/
lemma firstMatchLabel_of_first (rules : List (List String × String)) (dflt text : String)
    (i : Nat) (h : i < rules.length)
    (hmatch : matchesRule (rules.get ⟨i, h⟩).1 text = true)
    (hbefore : ∀ r ∈ rules.take i, matchesRule r.1 text = false) :
    firstMatchLabel rules dflt text = (rules.get ⟨i, h⟩).2 := by
  unfold firstMatchLabel
  rw [find?_of_first _ rules i h hmatch hbefore]

/-- The label scan never returns the empty string when neither the labels nor
the default are empty. -/
lemma firstMatchLabel_ne_empty (rules : List (List String × String)) (dflt text : String)
    (hr : ∀ r ∈ rules, r.2 ≠ "") (hd : dflt ≠ "") :
    firstMatchLabel rules dflt text ≠ "" := by
  unfold firstMatchLabel
  cases hf : rules.find? (fun r => matchesRule r.1 text) with
  | none => exact hd
  | some r => exact hr r (List.mem_of_find?_eq_some hf)

/-- Claim C5: each scene-classification field scans its fixed ordered rule
list and returns the label of the first rule whose keyword set matches (list
order decides, not position in the text), falling back to the field's fixed
neutral default when no rule matches; the result is never empty. -/
theorem scene_classification_first_match (text : String) :
    (extractCharacterAction text ≠ "" ∧ extractSceneDescription text ≠ "" ∧
      extractEmotionalTone text ≠ "") ∧
    (((∀ r ∈ actionPatterns, matchesRule r.1 text = false) →
        extractCharacterAction text = "standing thoughtfully") ∧
      ∀ i (h : i < actionPatterns.length),
        matchesRule (actionPatterns.get ⟨i, h⟩).1 text = true →
        (∀ r ∈ actionPatterns.take i, matchesRule r.1 text = false) →
        extractCharacterAction text = (actionPatterns.get ⟨i, h⟩).2) ∧
    (((∀ r ∈ scenePatterns, matchesRule r.1 text = false) →
        extractSceneDescription text = "thoughtfully composed indoor setting") ∧
      ∀ i (h : i < scenePatterns.length),
        matchesRule (scenePatterns.get ⟨i, h⟩).1 text = true →
        (∀ r ∈ scenePatterns.take i, matchesRule r.1 text = false) →
        extractSceneDescription text = (scenePatterns.get ⟨i, h⟩).2) ∧
    (((∀ r ∈ tonePatterns, matchesRule r.1 text = false) →
        extractEmotionalTone text = "thoughtful and engaging") ∧
      ∀ i (h : i < tonePatterns.length),
        matchesRule (tonePatterns.get ⟨i, h⟩).1 text = true →
        (∀ r ∈ tonePatterns.take i, matchesRule r.1 text = false) →
        extractEmotionalTone text = (tonePatterns.get ⟨i, h⟩).2) := by
  refine ⟨⟨?_, ?_, ?_⟩, ⟨?_, ?_⟩, ⟨?_, ?_⟩, ⟨?_, ?_⟩⟩
  · exact firstMatchLabel_ne_empty _ _ _ (by decide) (by decide)
  · exact firstMatchLabel_ne_empty _ _ _ (by decide) (by decide)
  · exact firstMatchLabel_ne_empty _ _ _ (by decide) (by decide)
  · exact fun h => firstMatchLabel_default _ _ _ h
  · exact fun i h hm hb => firstMatchLabel_of_first _ _ _ i h hm hb
  · exact fun h => firstMatchLabel_default _ _ _ h
  · exact fun i h hm hb => firstMatchLabel_of_first _ _ _ i h hm hb
  · exact fun h => firstMatchLabel_default _ _ _ h
  · exact fun i h hm hb => firstMatchLabel_of_first _ _ _ i h hm hb

theorem scene_classification_first_match_witness :
    extractCharacterAction "Maya explored the silent halls" = "walking and exploring" ∧
    extractEmotionalTone "it was calm there" = "peaceful and serene" ∧
    extractSceneDescription "nothing matches this text" = "thoughtfully composed indoor setting" :=
  ⟨(scene_classification_first_match "Maya explored the silent halls").2.1.2
      2 (by decide) (by decide) (by decide),
    (scene_classification_first_match "it was calm there").2.2.2.2
      2 (by decide) (by decide) (by decide),
    (scene_classification_first_match "nothing matches this text").2.2.1.1 (by decide)⟩

/-- The nested `pageIndex < totalPages * c` tests are exactly the fixed
breakpoints on the ratio `pageIndex / totalPages`. -/
lemma storyArc_ratio (i n : ℕ) (hn : 0 < n) (hi : i < n) :
    (storyArc i n = .beginning ↔ (0 ≤ (i:ℚ)/n ∧ (i:ℚ)/n < 2/10)) ∧
    (storyArc i n = .rising ↔ (2/10 ≤ (i:ℚ)/n ∧ (i:ℚ)/n < 6/10)) ∧
    (storyArc i n = .climax ↔ (6/10 ≤ (i:ℚ)/n ∧ (i:ℚ)/n < 7/10)) ∧
    (storyArc i n = .falling ↔ (7/10 ≤ (i:ℚ)/n ∧ (i:ℚ)/n < 9/10)) ∧
    (storyArc i n = .resolution ↔ (9/10 ≤ (i:ℚ)/n ∧ (i:ℚ)/n ≤ 1)) := by
  have hn' : (0:ℚ) < (n:ℚ) := by exact_mod_cast hn
  have h0 : 0 ≤ (i:ℚ)/(n:ℚ) := by positivity
  have h1 : (i:ℚ)/(n:ℚ) ≤ 1 := by
    rw [div_le_one hn']; exact_mod_cast hi.le
  have key : ∀ c : ℚ, ((i:ℚ)/(n:ℚ) < c ↔ (i:ℚ) < (n:ℚ) * c) := fun c => by
    rw [div_lt_iff₀ hn', mul_comm]
  have key2 : ∀ c : ℚ, (c ≤ (i:ℚ)/(n:ℚ) ↔ (n:ℚ) * c ≤ (i:ℚ)) := fun c => by
    rw [le_div_iff₀ hn', mul_comm]
  unfold storyArc
  split_ifs with hA hB hC hD
  · have r1 : (i:ℚ)/n < 2/10 := (key _).mpr hA
    exact ⟨iff_of_true rfl ⟨h0, r1⟩,
      iff_of_false (by simp) (fun hc => by linarith [hc.1]),
      iff_of_false (by simp) (fun hc => by linarith [hc.1]),
      iff_of_false (by simp) (fun hc => by linarith [hc.1]),
      iff_of_false (by simp) (fun hc => by linarith [hc.1])⟩
  · have r1 : 2/10 ≤ (i:ℚ)/n := (key2 _).mpr (not_lt.mp hA)
    have r2 : (i:ℚ)/n < 6/10 := (key _).mpr hB
    exact ⟨iff_of_false (by simp) (fun hc => by linarith [hc.2]),
      iff_of_true rfl ⟨r1, r2⟩,
      iff_of_false (by simp) (fun hc => by linarith [hc.1]),
      iff_of_false (by simp) (fun hc => by linarith [hc.1]),
      iff_of_false (by simp) (fun hc => by linarith [hc.1])⟩
  · have r1 : 6/10 ≤ (i:ℚ)/n := (key2 _).mpr (not_lt.mp hB)
    have r2 : (i:ℚ)/n < 7/10 := (key _).mpr hC
    exact ⟨iff_of_false (by simp) (fun hc => by linarith [hc.2]),
      iff_of_false (by simp) (fun hc => by linarith [hc.2]),
      iff_of_true rfl ⟨r1, r2⟩,
      iff_of_false (by simp) (fun hc => by linarith [hc.1]),
      iff_of_false (by simp) (fun hc => by linarith [hc.1])⟩
  · have r1 : 7/10 ≤ (i:ℚ)/n := (key2 _).mpr (not_lt.mp hC)
    have r2 : (i:ℚ)/n < 9/10 := (key _).mpr hD
    exact ⟨iff_of_false (by simp) (fun hc => by linarith [hc.2]),
      iff_of_false (by simp) (fun hc => by linarith [hc.2]),
      iff_of_false (by simp) (fun hc => by linarith [hc.2]),
      iff_of_true rfl ⟨r1, r2⟩,
      iff_of_false (by simp) (fun hc => by linarith [hc.1])⟩
  · have r1 : 9/10 ≤ (i:ℚ)/n := (key2 _).mpr (not_lt.mp hD)
    exact ⟨iff_of_false (by simp) (fun hc => by linarith [hc.2]),
      iff_of_false (by simp) (fun hc => by linarith [hc.2]),
      iff_of_false (by simp) (fun hc => by linarith [hc.2]),
      iff_of_false (by simp) (fun hc => by linarith [hc.2]),
      iff_of_true rfl ⟨r1, h1⟩⟩

/-- Claim C6: the narrative-arc position is a pure function of the ratio
`pageIndex / totalPages` against the fixed breakpoints — beginning on
`[0, 0.2)`, rising on `[0.2, 0.6)`, climax on `[0.6, 0.7)`, falling on
`[0.7, 0.9)`, resolution on `[0.9, 1]` — and in particular page 0 of 10 is
beginning, page 5 of 10 rising, page 6 of 10 climax, page 9 of 10
resolution. -/
theorem narrative_arc_breakpoints (i n : ℕ) (hn : 0 < n) (hi : i < n) :
    ((storyArc i n = .beginning ↔ (0 ≤ (i:ℚ)/n ∧ (i:ℚ)/n < 2/10)) ∧
      (storyArc i n = .rising ↔ (2/10 ≤ (i:ℚ)/n ∧ (i:ℚ)/n < 6/10)) ∧
      (storyArc i n = .climax ↔ (6/10 ≤ (i:ℚ)/n ∧ (i:ℚ)/n < 7/10)) ∧
      (storyArc i n = .falling ↔ (7/10 ≤ (i:ℚ)/n ∧ (i:ℚ)/n < 9/10)) ∧
      (storyArc i n = .resolution ↔ (9/10 ≤ (i:ℚ)/n ∧ (i:ℚ)/n ≤ 1))) ∧
    (storyArc 0 10 = .beginning ∧ storyArc 5 10 = .rising ∧
      storyArc 6 10 = .climax ∧ storyArc 9 10 = .resolution) :=
  ⟨storyArc_ratio i n hn hi,
    by norm_num [storyArc], by norm_num [storyArc], by norm_num [storyArc],
    by norm_num [storyArc]⟩

theorem narrative_arc_breakpoints_witness :
    (0 < 10 ∧ 6 < 10) ∧
    (storyArc 6 10 = .climax ↔ (6/10 ≤ ((6:ℕ):ℚ)/(10:ℕ) ∧ ((6:ℕ):ℚ)/(10:ℕ) < 7/10)) :=
  ⟨⟨by decide, by decide⟩,
    (narrative_arc_breakpoints 6 10 (by decide) (by decide)).1.2.2.1⟩

/-- A filter of a map over `range k` has at most `k` elements. -/
lemma filtered_range_length {α : Type} (f : ℕ → α) (g : α → Bool) (k : ℕ) :
    (((List.range k).map f).filter g).length ≤ k :=
  le_trans (List.length_filter_le _ _) (by simp)

/-- Claim C7: pagination produces at most the requested number of pages, each
of them non-blank (hence non-empty): the paragraph groups are cut at paragraph
boundaries into at most `k` segments and blank segments are dropped. -/
theorem pagination_bounded (content : String) (k : ℕ) (_hk : 0 < k) :
    (intelligentStoryPagination content k).length ≤ k ∧
    ∀ p ∈ intelligentStoryPagination content k, p ≠ "" ∧ trimStr p ≠ "" := by
  constructor
  · exact filtered_range_length _ _ k
  · intro p hp
    unfold intelligentStoryPagination at hp
    simp only [List.mem_filter] at hp
    have ht : trimStr p ≠ "" := by simpa using hp.2
    exact ⟨fun hpe => ht (by rw [hpe]; rfl), ht⟩

theorem pagination_bounded_witness :
    0 < 5 ∧
    ((intelligentStoryPagination "One.\n\nTwo.\n\nThree." 5).length ≤ 5 ∧
      ∀ p ∈ intelligentStoryPagination "One.\n\nTwo.\n\nThree." 5, p ≠ "" ∧ trimStr p ≠ "") :=
  ⟨by decide, pagination_bounded "One.\n\nTwo.\n\nThree." 5 (by decide)⟩

/-- `List.lookup` only returns stored values. -/
lemma lookup_pair_mem {β : Type} :
    ∀ (l : List (String × β)) (k : String) (v : β), l.lookup k = some v → (k, v) ∈ l := by
  intro l
  induction l with
  | nil => intro k v h; simp [List.lookup] at h
  | cons p rest ih =>
    intro k v h
    obtain ⟨a, b⟩ := p
    rw [List.lookup] at h
    by_cases hk : k == a
    · simp [hk] at h
      subst h
      simp [show k = a from by simpa using hk]
    · simp [hk] at h
      exact List.mem_cons_of_mem _ (ih k v h)

/-- Every mood set the resolution step can produce is non-empty. -/
lemma resolveMoodSet_pos (c : CharacterAnalysis) (g : String) :
    1 ≤ (resolveMoodSet c g).length := by
  unfold resolveMoodSet
  cases hl : (genreSetFor g).lookup c.mood with
  | some s =>
    simp only [hl]
    have hall : ∀ pr ∈ genreSetFor g, 1 ≤ pr.2.length := by
      unfold genreSetFor
      split_ifs <;> decide
    exact hall _ (lookup_pair_mem _ _ _ hl)
  | none =>
    simp only [hl]
    unfold genreSetFor
    split_ifs <;>
      simp [illustrationSetsAdventure, illustrationSetsMystery, illustrationSetsFantasy]

/-- Claim C9: the simulated placeholder selection cycles through the resolved
mood set by page number modulo the set size: the set is non-empty, page
`N + 1` (where `N` is the set size) selects the same base asset as page `1`,
and the full illustration URL is that base asset followed by the character
consistency parameters. -/
theorem placeholder_cycling (character : CharacterAnalysis) (genre : String) :
    1 ≤ (resolveMoodSet character genre).length ∧
    selectIllustrationBase character genre ((resolveMoodSet character genre).length + 1) =
      selectIllustrationBase character genre 1 ∧
    ∀ pageNumber, generatePageIllustration character genre pageNumber =
      selectIllustrationBase character genre pageNumber ++ "&" ++
        illustrationParams character pageNumber := by
  refine ⟨resolveMoodSet_pos character genre, ?_, fun pageNumber => rfl⟩
  unfold selectIllustrationBase
  simp [Nat.add_sub_cancel, Nat.mod_self, Nat.zero_mod]

/-- Claim C8 (counterexample): with locale `es` and target lemma `resilient`,
a plain first occurrence followed by an emphasized occurrence is left without
a translation: only the emphasized occurrence gains `(resistente)`, so the
first occurrence of the lemma does not. -/
theorem translation_first_occurrence_skipped :
    addTranslationsToText "resilient and **resilient**" ["resilient"] "es" =
      "resilient and **resilient** (resistente)" ∧
    charsStartWith "resilient (".toList
      (addTranslationsToText "resilient and **resilient**" ["resilient"] "es").toList = false := by
  constructor
  · decide
  · decide


/-! ### A text family for the emphasized-occurrence contract

To state the translation contract for *every* emphasized occurrence, texts are
assembled from arbitrary segments (`gaps`) separated by emphasized
occurrences of the lemma; the theorems below quantify over all such texts. -/

/-- The emphasized form `**w**` that the first replacement pass scans for. -/
def boldPat (w : List Char) : List Char := '*' :: '*' :: w ++ ['*', '*']

/-- The annotation ` (t)` appended behind an occurrence. -/
def annexFor (t : List Char) : List Char := ' ' :: '(' :: t ++ [')']

/-- Gaps interleaved with emphasized occurrences `**w**`:
`g₀ **w** g₁ **w** … gₙ`. -/
def interBold (w : List Char) : List (List Char) → List Char
  | [] => []
  | [g] => g
  | g :: g2 :: rest => g ++ boldPat w ++ interBold w (g2 :: rest)

/-- The same text with every emphasized occurrence annotated:
`g₀ **w** (t) g₁ **w** (t) … gₙ`. -/
def interBoldAnn (w t : List Char) : List (List Char) → List Char
  | [] => []
  | [g] => g
  | g :: g2 :: rest => g ++ boldPat w ++ annexFor t ++ interBoldAnn w t (g2 :: rest)

/-- Case-insensitive version of `charsContain`. -/
def ciCharsContain (needle : List Char) : List Char → Bool
  | [] => ciStartsWith needle []
  | c :: cs => ciStartsWith needle (c :: cs) || ciCharsContain needle cs

/-- The first character (if any) is a non-word character — the shape of every
continuation at which a word-character run must stop. -/
def headNonWord : List Char → Prop
  | [] => True
  | c :: _ => isWordChar c = false

/-- The character to the left after scanning past `l` (`prev` if `l` is
empty). -/
def lastOr (prev : Option Char) : List Char → Option Char
  | [] => prev
  | c :: cs => lastOr (some c) cs

/-- Every position of the scanned segment fails to start a case-insensitive
match of `w`, with `rest` as the continuation text.  This is the exact
condition under which the word-boundary pass copies the segment verbatim. -/
def scanSafe (w rest : List Char) : List Char → Prop
  | [] => True
  | c :: cs => ciStartsWith w (c :: (cs ++ rest)) = false ∧ scanSafe w rest cs

/-! ### Character-level facts -/

lemma char_toNat_ofNat (n : Nat) (h : n < 55296) : (Char.ofNat n).toNat = n := by
  unfold Char.ofNat
  rw [dif_pos (Or.inl h)]
  rfl

lemma char_ne_of_toNat_ne {a b : Char} (h : a.toNat ≠ b.toNat) : a ≠ b :=
  fun he => h (he ▸ rfl)

lemma toNat_lowerChar_upper (c : Char) (h : ('A' ≤ c && c ≤ 'Z') = true) :
    (lowerChar c).toNat = c.toNat + 32 := by
  have hb : 65 ≤ c.toNat ∧ c.toNat ≤ 90 := by
    simp only [Bool.and_eq_true, decide_eq_true_eq] at h
    exact h
  unfold lowerChar
  rw [if_pos h]
  exact char_toNat_ofNat _ (by omega)

lemma lowerChar_not_upper (c : Char) (h : ('A' ≤ c && c ≤ 'Z') = false) :
    lowerChar c = c := by
  unfold lowerChar
  rw [if_neg (by simp [h])]

/-- Numeric bounds behind `isWordChar`. -/
lemma toNat_of_word (c : Char) (h : isWordChar c = true) :
    (65 ≤ c.toNat ∧ c.toNat ≤ 90) ∨ (97 ≤ c.toNat ∧ c.toNat ≤ 122) ∨
      (48 ≤ c.toNat ∧ c.toNat ≤ 57) ∨ c.toNat = 95 := by
  unfold isWordChar at h
  simp only [Char.isAlpha, Char.isUpper, Char.isLower, Char.isDigit, Bool.or_eq_true,
    Bool.and_eq_true, decide_eq_true_eq, beq_iff_eq] at h
  rcases h with ((⟨h1, h2⟩ | ⟨h1, h2⟩) | ⟨h1, h2⟩) | rfl
  · exact Or.inl ⟨h1, h2⟩
  · exact Or.inr (Or.inl ⟨h1, h2⟩)
  · exact Or.inr (Or.inr (Or.inl ⟨h1, h2⟩))
  · exact Or.inr (Or.inr (Or.inr rfl))

lemma char_eq_of_toNat_eq {a b : Char} (h : a.toNat = b.toNat) : a = b := by
  cases a with
  | mk va pa =>
    cases b with
    | mk vb pb =>
      have hv : va = vb := UInt32.toNat.inj h
      subst hv
      rfl

/-- Numeric exclusions behind `¬ isWordChar`. -/
lemma toNat_of_not_word (c : Char) (h : isWordChar c = false) :
    ¬(65 ≤ c.toNat ∧ c.toNat ≤ 90) ∧ ¬(97 ≤ c.toNat ∧ c.toNat ≤ 122) ∧
      ¬(48 ≤ c.toNat ∧ c.toNat ≤ 57) ∧ c.toNat ≠ 95 := by
  unfold isWordChar at h
  simp only [Char.isAlpha, Char.isUpper, Char.isLower, Char.isDigit, Bool.or_eq_false_iff,
    Bool.and_eq_false_iff, decide_eq_false_iff_not, not_le, beq_eq_false_iff_ne] at h
  obtain ⟨⟨ha, hd⟩, hu⟩ := h
  have hup : ¬(65 ≤ c.toNat) ∨ ¬(c.toNat ≤ 90) := ha.1
  have hlo : ¬(97 ≤ c.toNat) ∨ ¬(c.toNat ≤ 122) := ha.2
  have hdg : ¬(48 ≤ c.toNat) ∨ ¬(c.toNat ≤ 57) := hd
  have h95 : c.toNat ≠ 95 := fun he => hu (char_eq_of_toNat_eq (by simpa using he))
  refine ⟨?_, ?_, ?_, h95⟩ <;> omega

/-- The lowered form of a word character is a (lower-case) word character
code. -/
lemma toNat_lowerChar_word (c : Char) (h : isWordChar c = true) :
    (97 ≤ (lowerChar c).toNat ∧ (lowerChar c).toNat ≤ 122) ∨
      (48 ≤ (lowerChar c).toNat ∧ (lowerChar c).toNat ≤ 57) ∨
      (lowerChar c).toNat = 95 := by
  cases hcond : ('A' ≤ c && c ≤ 'Z') with
  | true =>
    rw [toNat_lowerChar_upper c hcond]
    have hb : 65 ≤ c.toNat ∧ c.toNat ≤ 90 := by
      simp only [Bool.and_eq_true, decide_eq_true_eq] at hcond
      exact hcond
    exact Or.inl (by omega)
  | false =>
    rw [lowerChar_not_upper c hcond]
    have hnb : ¬(65 ≤ c.toNat ∧ c.toNat ≤ 90) := by
      intro hb
      have : ('A' ≤ c && c ≤ 'Z') = true := by
        simp only [Bool.and_eq_true, decide_eq_true_eq]
        exact hb
      rw [hcond] at this
      exact Bool.false_ne_true this
    rcases toNat_of_word c h with hb | hb | hb | hb
    · exact absurd hb hnb
    · exact Or.inl hb
    · exact Or.inr (Or.inl hb)
    · exact Or.inr (Or.inr hb)

/-- A word character and a non-word character never compare equal after
case-folding. -/
lemma lower_word_ne_nonword (a b : Char) (ha : isWordChar a = true)
    (hb : isWordChar b = false) : (lowerChar a == lowerChar b) = false := by
  have hbl : lowerChar b = b := by
    apply lowerChar_not_upper
    cases hcond : ('A' ≤ b && b ≤ 'Z') with
    | true =>
      have h1 : 65 ≤ b.toNat ∧ b.toNat ≤ 90 := by
        simp only [Bool.and_eq_true, decide_eq_true_eq] at hcond
        exact hcond
      exact absurd h1 (toNat_of_not_word b hb).1
    | false => rfl
  rw [hbl]
  have h1 := toNat_lowerChar_word a ha
  have h2 := toNat_of_not_word b hb
  apply beq_eq_false_iff_ne.mpr
  apply char_ne_of_toNat_ne
  rcases h1 with h' | h' | h' <;> omega

/-! ### Scanner facts -/

/-- A pattern case-insensitively matches itself at the head of any
continuation. -/
lemma ciStartsWith_self_ci (p : List Char) : ∀ rest, ciStartsWith p (p ++ rest) = true := by
  induction p with
  | nil => intro rest; rfl
  | cons a as ih => intro rest; simp [ciStartsWith, ih]

/-- A head mismatch refutes a case-insensitive match. -/
lemma ciStartsWith_false_of_head (wc c : Char) (w' s : List Char)
    (hmis : (lowerChar wc == lowerChar c) = false) :
    ciStartsWith (wc :: w') (c :: s) = false := by
  simp [ciStartsWith, hmis]

/-- Lower-casing cannot produce `*`. -/
lemma lowerChar_ne_star (c : Char) (hc : c ≠ '*') :
    (lowerChar '*' == lowerChar c) = false := by
  have hs : lowerChar '*' = '*' := by decide
  rw [hs]
  apply beq_eq_false_iff_ne.mpr
  intro he
  cases hcond : ('A' ≤ c && c ≤ 'Z') with
  | false =>
    rw [lowerChar_not_upper c hcond] at he
    exact hc he.symm
  | true =>
    have h32 := toNat_lowerChar_upper c hcond
    have hb : 65 ≤ c.toNat ∧ c.toNat ≤ 90 := by
      simp only [Bool.and_eq_true, decide_eq_true_eq] at hcond
      exact hcond
    rw [← he] at h32
    have h42 : ('*').toNat = 42 := rfl
    omega

/-- A word only made of word characters cannot match across a non-word
continuation boundary: if it fails on the prefix alone it fails with the
continuation attached. -/
lemma ciStartsWith_append_stop (w : List Char)
    (hword : ∀ c ∈ w, isWordChar c = true) :
    ∀ (pre rest : List Char), ciStartsWith w pre = false → headNonWord rest →
      ciStartsWith w (pre ++ rest) = false := by
  induction w with
  | nil => intro pre rest hpre _; cases pre <;> simp [ciStartsWith] at hpre
  | cons wc w' ih =>
    intro pre rest hpre hrest
    cases pre with
    | nil =>
      cases rest with
      | nil => rfl
      | cons r rs =>
        exact ciStartsWith_false_of_head wc r w' rs
          (lower_word_ne_nonword wc r (hword wc (by simp)) hrest)
    | cons p ps =>
      rw [List.cons_append]
      rw [show ciStartsWith (wc :: w') (p :: ps) =
        ((lowerChar wc == lowerChar p) && ciStartsWith w' ps) from rfl] at hpre
      rcases Bool.and_eq_false_iff.mp hpre with hm | hm
      · simp [ciStartsWith, hm]
      · have := ih (fun c hc => hword c (by simp [hc])) ps rest hm hrest
        simp [ciStartsWith, this]

/-- Build the verbatim-scan condition for a segment without occurrences of
the word, stopping at a non-word continuation. -/
lemma scanSafe_of_no_ci (w : List Char) (hword : ∀ c ∈ w, isWordChar c = true) :
    ∀ (g rest : List Char), ciCharsContain w g = false → headNonWord rest →
      scanSafe w rest g := by
  intro g
  induction g with
  | nil => intro rest _ _; trivial
  | cons c cs ih =>
    intro rest hg hrest
    have hsplit : ciStartsWith w (c :: cs) = false ∧ ciCharsContain w cs = false := by
      have : (ciStartsWith w (c :: cs) || ciCharsContain w cs) = false := hg
      exact Bool.or_eq_false_iff.mp this
    refine ⟨?_, ih rest hsplit.2 hrest⟩
    have := ciStartsWith_append_stop w hword (c :: cs) rest hsplit.1 hrest
    simpa using this

/-- `charsContain` finds an explicitly present chunk. -/
lemma charsStartWith_self (p : List Char) : ∀ rest, charsStartWith p (p ++ rest) = true := by
  induction p with
  | nil => intro rest; rfl
  | cons a as ih => intro rest; simp [charsStartWith, ih]

lemma charsContain_mid (p : List Char) : ∀ (x y : List Char),
    charsContain p (x ++ (p ++ y)) = true := by
  intro x
  induction x with
  | nil =>
    intro y
    cases hp : p ++ y with
    | nil => cases p with
      | nil => rfl
      | cons a as => simp at hp
    | cons c cs => simp [charsContain, ← hp, charsStartWith_self]
  | cons c cs ih =>
    intro y
    simp [charsContain, ih y]

/-- The first pass copies a segment verbatim when the pattern's head matches
none of its characters. -/
lemma replaceAllCI_skip (p0 : Char) (ps repl : List Char) :
    ∀ (g rest : List Char) (fuel : Nat),
      (∀ c ∈ g, (lowerChar p0 == lowerChar c) = false) →
      g.length + rest.length ≤ fuel →
      replaceAllCI (p0 :: ps) repl fuel (g ++ rest) =
        g ++ replaceAllCI (p0 :: ps) repl (fuel - g.length) rest := by
  intro g
  induction g with
  | nil => intro rest fuel _ _; simp
  | cons c cs ih =>
    intro rest fuel hg hfuel
    cases fuel with
    | zero => simp at hfuel
    | succ f =>
      rw [List.cons_append]
      have hm : ciStartsWith (p0 :: ps) (c :: (cs ++ rest)) = false :=
        ciStartsWith_false_of_head p0 c ps (cs ++ rest) (hg c (by simp))
      rw [show replaceAllCI (p0 :: ps) repl (f + 1) (c :: (cs ++ rest)) =
        c :: replaceAllCI (p0 :: ps) repl f (cs ++ rest) by simp [replaceAllCI, hm]]
      rw [ih rest f (fun x hx => hg x (by simp [hx])) (by simp at hfuel ⊢; omega)]
      simp [List.cons_append, Nat.succ_sub_succ]

/-- The first pass rewrites a pattern occurrence at the head to the
replacement and continues behind it. -/
lemma replaceAllCI_match (p0 : Char) (ps repl rest : List Char) (fuel : Nat) :
    replaceAllCI (p0 :: ps) repl (fuel + 1) ((p0 :: ps) ++ rest) =
      repl ++ replaceAllCI (p0 :: ps) repl fuel rest := by
  have hm : ciStartsWith (p0 :: ps) ((p0 :: ps) ++ rest) = true := ciStartsWith_self_ci _ _
  have hd : ((p0 :: ps) ++ rest).drop (p0 :: ps).length = rest := List.drop_left _ _
  rw [List.cons_append]
  rw [List.cons_append] at hm hd
  simp [replaceAllCI, hm, hd]

/-- `replaceAllCI_skip`, specialized to the emphasis pattern. -/
lemma replaceAllCI_skip_bold (w repl g rest : List Char) (fuel : Nat)
    (hg : ∀ c ∈ g, c ≠ '*') (hfuel : g.length + rest.length ≤ fuel) :
    replaceAllCI (boldPat w) repl fuel (g ++ rest) =
      g ++ replaceAllCI (boldPat w) repl (fuel - g.length) rest :=
  replaceAllCI_skip '*' ('*' :: w ++ ['*', '*']) repl g rest fuel
    (fun c hc => lowerChar_ne_star c (hg c hc)) hfuel

/-- `replaceAllCI_match`, specialized to the emphasis pattern. -/
lemma replaceAllCI_match_bold (w repl rest : List Char) (fuel : Nat) :
    replaceAllCI (boldPat w) repl (fuel + 1) (boldPat w ++ rest) =
      repl ++ replaceAllCI (boldPat w) repl fuel rest :=
  replaceAllCI_match '*' ('*' :: w ++ ['*', '*']) repl rest fuel

lemma interBold_cons_cons (w g g2 : List Char) (rest : List (List Char)) :
    interBold w (g :: g2 :: rest) = g ++ (boldPat w ++ interBold w (g2 :: rest)) := by
  simp [interBold]

lemma interBoldAnn_cons_cons (w t g g2 : List Char) (rest : List (List Char)) :
    interBoldAnn w t (g :: g2 :: rest) =
      g ++ (boldPat w ++ (annexFor t ++ interBoldAnn w t (g2 :: rest))) := by
  simp [interBoldAnn]

/-- Pass 1 on an interleaved text: every emphasized occurrence `**w**` is
replaced by `**w** (t)` and nothing else changes. -/
lemma replaceAllCI_interBold (w t : List Char) :
    ∀ (gaps : List (List Char)) (fuel : Nat),
      (∀ g ∈ gaps, '*' ∉ g) →
      (interBold w gaps).length ≤ fuel →
      replaceAllCI (boldPat w) (boldPat w ++ annexFor t) fuel (interBold w gaps) =
        interBoldAnn w t gaps := by
  intro gaps
  induction gaps with
  | nil => intro fuel _ _; cases fuel <;> rfl
  | cons g grest ih =>
    intro fuel hgaps hfuel
    have hg : ∀ c ∈ g, c ≠ '*' := fun c hc he => (hgaps g (by simp)) (he ▸ hc)
    cases grest with
    | nil =>
      have h1 := replaceAllCI_skip_bold w (boldPat w ++ annexFor t) g [] fuel hg
        (by simpa [interBold] using hfuel)
      simp only [List.append_nil] at h1
      rw [show interBold w [g] = g from rfl, show interBoldAnn w t [g] = g from rfl, h1]
      simp [replaceAllCI]
    | cons g2 grest2 =>
      rw [interBold_cons_cons]
      have hlen0 : (interBold w (g :: g2 :: grest2)).length =
          g.length + ((boldPat w).length + (interBold w (g2 :: grest2)).length) := by
        rw [interBold_cons_cons]
        simp
      have hlen : g.length + (boldPat w ++ interBold w (g2 :: grest2)).length ≤ fuel := by
        rw [hlen0] at hfuel
        simpa using hfuel
      rw [replaceAllCI_skip_bold w (boldPat w ++ annexFor t) g _ fuel hg hlen]
      have hbold : 1 ≤ (boldPat w).length := by simp [boldPat]
      obtain ⟨f, hf⟩ : ∃ f, fuel - g.length = f + 1 := by
        refine ⟨fuel - g.length - 1, ?_⟩
        rw [hlen0] at hfuel
        omega
      rw [hf, replaceAllCI_match_bold]
      rw [ih f (fun x hx => hgaps x (by simp [hx])) (by
        rw [hlen0] at hfuel
        omega)]
      rw [interBoldAnn_cons_cons]
      simp

lemma replaceWordCI_nil (w t guard : List Char) (fuel : Nat) (prev : Option Char) :
    replaceWordCI w t guard fuel prev [] = [] := by
  cases fuel <;> rfl

lemma get?_after (l₁ l₂ : List Char) : (l₁ ++ l₂).get? l₁.length = l₂.get? 0 := by
  induction l₁ with
  | nil => rfl
  | cons c cs ih => simpa [List.get?] using ih

/-- A word of word characters never matches at a non-word character. -/
lemma ciStartsWith_word_false (w : List Char) (hw : w ≠ [])
    (hword : ∀ c ∈ w, isWordChar c = true) (b : Char) (hb : isWordChar b = false)
    (s : List Char) : ciStartsWith w (b :: s) = false := by
  obtain ⟨wc, w', rfl⟩ : ∃ wc w', w = wc :: w' := by
    cases w with
    | nil => exact absurd rfl hw
    | cons a b => exact ⟨a, b, rfl⟩
  exact ciStartsWith_false_of_head wc b w' s
    (lower_word_ne_nonword wc b (hword wc (by simp)) hb)

/-- The second pass copies one unmatched character. -/
lemma replaceWordCI_skip_one (w t guard : List Char) (c : Char) (rest : List Char)
    (fuel : Nat) (prev : Option Char) (hc : ciStartsWith w (c :: rest) = false) :
    replaceWordCI w t guard (fuel + 1) prev (c :: rest) =
      c :: replaceWordCI w t guard fuel (some c) rest := by
  simp [replaceWordCI, hc]

/-- The second pass copies a whole match-free segment verbatim. -/
lemma replaceWordCI_skipAll (w t guard : List Char) :
    ∀ (g rest : List Char) (fuel : Nat) (prev : Option Char),
      scanSafe w rest g → g.length + rest.length ≤ fuel →
      replaceWordCI w t guard fuel prev (g ++ rest) =
        g ++ replaceWordCI w t guard (fuel - g.length) (lastOr prev g) rest := by
  intro g
  induction g with
  | nil => intro rest fuel prev _ _; simp [lastOr]
  | cons c cs ih =>
    intro rest fuel prev hsafe hfuel
    obtain ⟨h1, h2⟩ := hsafe
    cases fuel with
    | zero => simp at hfuel
    | succ f =>
      rw [List.cons_append]
      rw [replaceWordCI_skip_one w t guard c (cs ++ rest) f prev h1]
      rw [ih rest f (some c) h2 (by simp at hfuel ⊢; omega)]
      simp [List.cons_append, Nat.succ_sub_succ, lastOr]

/-- The second pass finds the word with intact boundaries, but the guard —
the emphasized form being present in the scanned-over text — makes it copy
the occurrence unannotated and continue behind it. -/
lemma replaceWordCI_match_skip (w t guard : List Char)
    (hword : ∀ c ∈ w, isWordChar c = true)
    (hguard : charsContain ('*' :: '*' :: w ++ ['*', '*']) guard = true) :
    ∀ (rest : List Char) (fuel : Nat) (prev : Option Char),
      w ≠ [] →
      (match prev with | some c => isWordChar c | none => false) = false →
      headNonWord rest →
      replaceWordCI w t guard (fuel + 1) prev (w ++ rest) =
        w ++ replaceWordCI w t guard fuel w.getLast? rest := by
  intro rest fuel prev hw hprev hrest
  obtain ⟨wc, w', rfl⟩ : ∃ wc w', w = wc :: w' := by
    cases w with
    | nil => exact absurd rfl hw
    | cons a b => exact ⟨a, b, rfl⟩
  have etake : ((wc :: w') ++ rest).take (wc :: w').length = wc :: w' := List.take_left _ _
  have edrop : ((wc :: w') ++ rest).drop (wc :: w').length = rest := List.drop_left _ _
  have estart : ciStartsWith (wc :: w') ((wc :: w') ++ rest) = true := ciStartsWith_self_ci _ _
  have eget2 : (w' ++ rest)[w'.length]? = rest[0]? := by
    rw [List.getElem?_append_right (le_refl w'.length)]
    simp
  have hb1 : wordBoundaryBetween prev (some wc) = true := by
    simp [wordBoundaryBetween, hprev, hword wc (by simp)]
  obtain ⟨lc, hlc, hlcw⟩ : ∃ lc, (wc :: w').getLast? = some lc ∧ isWordChar lc = true := by
    have hne : (wc :: w') ≠ [] := by simp
    exact ⟨(wc :: w').getLast hne, List.getLast?_eq_getLast _ hne,
      hword _ (List.getLast_mem hne)⟩
  have hb2 : wordBoundaryBetween ((wc :: w').getLast?) (rest[0]?) = true := by
    rw [hlc]
    cases rest with
    | nil => simp [wordBoundaryBetween, hlcw]
    | cons r rs =>
      have hr : isWordChar r = false := hrest
      simp [wordBoundaryBetween, hlcw, hr]
  rw [List.cons_append] at etake edrop estart ⊢
  simp only [List.cons_append] at hguard
  simp [replaceWordCI, etake, edrop, estart, eget2, hb1, hb2, hguard]

/-- Pass 2 on the annotated interleaved text changes nothing: plain
occurrences do not exist in the gaps, and the occurrences inside the
emphasized forms are skipped because the guard text contains the emphasized
form. -/
lemma replaceWordCI_interBoldAnn (w t guard : List Char)
    (hw : w ≠ []) (hword : ∀ c ∈ w, isWordChar c = true)
    (ht : ciCharsContain w t = false)
    (hguard : charsContain (boldPat w) guard = true) :
    ∀ (gaps : List (List Char)) (fuel : Nat) (prev : Option Char),
      (∀ g ∈ gaps, ciCharsContain w g = false) →
      (interBoldAnn w t gaps).length ≤ fuel →
      replaceWordCI w t guard fuel prev (interBoldAnn w t gaps) =
        interBoldAnn w t gaps := by
  have hstar : ∀ s, ciStartsWith w ('*' :: s) = false :=
    ciStartsWith_word_false w hw hword '*' (by decide)
  have hspace : ∀ s, ciStartsWith w (' ' :: s) = false :=
    ciStartsWith_word_false w hw hword ' ' (by decide)
  have hopen : ∀ s, ciStartsWith w ('(' :: s) = false :=
    ciStartsWith_word_false w hw hword '(' (by decide)
  have hclose : ∀ s, ciStartsWith w (')' :: s) = false :=
    ciStartsWith_word_false w hw hword ')' (by decide)
  intro gaps
  induction gaps with
  | nil => intro fuel prev _ _; exact replaceWordCI_nil w t guard fuel prev
  | cons g grest ih =>
    intro fuel prev hgaps hfuel
    cases grest with
    | nil =>
      have hs := scanSafe_of_no_ci w hword g [] (hgaps g (by simp)) trivial
      have h1 := replaceWordCI_skipAll w t guard g [] fuel prev hs
        (by simpa [interBoldAnn] using hfuel)
      simp only [List.append_nil] at h1
      rw [show interBoldAnn w t [g] = g from rfl, h1, replaceWordCI_nil]
      simp
    | cons g2 grest2 =>
      have hwpos : 0 < w.length := List.length_pos.mpr hw
      have hlenb : (boldPat w).length = w.length + 4 := by simp [boldPat]
      have hlena : (annexFor t).length = t.length + 3 := by simp [annexFor]
      have hseglen : ('*' :: '*' :: ' ' :: '(' :: t).length = t.length + 4 := by simp
      have hL : g.length + (w.length + 4 +
          (t.length + 3 + (interBoldAnn w t (g2 :: grest2)).length)) ≤ fuel := by
        rw [interBoldAnn_cons_cons] at hfuel
        simp only [List.length_append, hlenb, hlena] at hfuel
        omega
      rw [interBoldAnn_cons_cons]
      -- step A: the gap
      have hnw1 : headNonWord (boldPat w ++ (annexFor t ++ interBoldAnn w t (g2 :: grest2))) := by
        simp only [boldPat, List.cons_append]
        show isWordChar '*' = false
        decide
      have hsg := scanSafe_of_no_ci w hword g
        (boldPat w ++ (annexFor t ++ interBoldAnn w t (g2 :: grest2))) (hgaps g (by simp)) hnw1
      rw [replaceWordCI_skipAll w t guard g _ fuel prev hsg
        (by simp only [List.length_append, hlenb, hlena]; omega)]
      -- step B: the opening asterisks
      have hshape2 : boldPat w ++ (annexFor t ++ interBoldAnn w t (g2 :: grest2)) =
          ['*', '*'] ++ (w ++ (['*', '*'] ++
            (annexFor t ++ interBoldAnn w t (g2 :: grest2)))) := by
        simp [boldPat]
      rw [hshape2]
      have hsafe2 : scanSafe w
          (w ++ (['*', '*'] ++ (annexFor t ++ interBoldAnn w t (g2 :: grest2)))) ['*', '*'] :=
        ⟨hstar _, hstar _, trivial⟩
      rw [replaceWordCI_skipAll w t guard ['*', '*'] _ (fuel - g.length) (lastOr prev g) hsafe2
        (by simp only [List.length_append, List.length_cons, List.length_nil, hlena]; omega)]
      -- step C: the emphasized word, skipped by the guard
      have hprevstar : lastOr (lastOr prev g) ['*', '*'] = some '*' := rfl
      rw [hprevstar, show ((['*', '*'] : List Char).length) = 2 from rfl]
      obtain ⟨f, hf⟩ : ∃ f, fuel - g.length - 2 = f + 1 := ⟨fuel - g.length - 3, by omega⟩
      rw [hf]
      rw [replaceWordCI_match_skip w t guard hword hguard
        (['*', '*'] ++ (annexFor t ++ interBoldAnn w t (g2 :: grest2))) f (some '*') hw
        (by decide) (by show isWordChar '*' = false; decide)]
      -- step D: closing asterisks and annotation up to the closing parenthesis
      have hshape3 : ['*', '*'] ++ (annexFor t ++ interBoldAnn w t (g2 :: grest2)) =
          ('*' :: '*' :: ' ' :: '(' :: t) ++ (')' :: interBoldAnn w t (g2 :: grest2)) := by
        simp [annexFor]
      rw [hshape3]
      have hseg : ciCharsContain w ('*' :: '*' :: ' ' :: '(' :: t) = false := by
        simp [ciCharsContain, hstar, hspace, hopen, ht]
      have hsafe4 := scanSafe_of_no_ci w hword ('*' :: '*' :: ' ' :: '(' :: t)
        (')' :: interBoldAnn w t (g2 :: grest2)) hseg (by show isWordChar ')' = false; decide)
      rw [replaceWordCI_skipAll w t guard ('*' :: '*' :: ' ' :: '(' :: t) _ f w.getLast? hsafe4
        (by simp only [List.length_cons, hseglen]; omega)]
      -- step E: the closing parenthesis
      rw [hseglen]
      obtain ⟨e, he⟩ : ∃ e, f - (t.length + 4) = e + 1 := ⟨f - (t.length + 4) - 1, by omega⟩
      rw [he, replaceWordCI_skip_one w t guard ')' (interBoldAnn w t (g2 :: grest2)) e _
        (hclose _)]
      -- step F: the remaining interleaving
      rw [ih e (some ')') (fun x hx => hgaps x (by simp [hx])) (by omega)]

/-- Both passes of `addTranslationForWord` on an interleaved text: every
emphasized occurrence of the word gains ` (translation)` immediately after
it, exactly once, and nothing else changes. -/
lemma addTranslationForWord_interBold (w t : String) (gaps : List (List Char))
    (hw : w.toList ≠ []) (hword : ∀ c ∈ w.toList, isWordChar c = true)
    (ht : ciCharsContain w.toList t.toList = false)
    (hlen : 2 ≤ gaps.length)
    (hgaps : ∀ g ∈ gaps, ('*' ∉ g) ∧ ciCharsContain w.toList g = false) :
    addTranslationForWord w t (String.mk (interBold w.toList gaps)) =
      String.mk (interBoldAnn w.toList t.toList gaps) := by
  simp only [addTranslationForWord]
  rw [show ('*' :: '*' :: w.toList ++ ['*', '*'] : List Char) = boldPat w.toList from rfl]
  rw [show (' ' :: '(' :: t.toList ++ [')'] : List Char) = annexFor t.toList from rfl]
  have hmk : (String.mk (interBold w.toList gaps)).toList = interBold w.toList gaps := rfl
  rw [hmk]
  rw [replaceAllCI_interBold w.toList t.toList gaps (interBold w.toList gaps).length
    (fun g hg => (hgaps g hg).1) (le_refl _)]
  have hguard : charsContain (boldPat w.toList) (interBoldAnn w.toList t.toList gaps) = true := by
    cases gaps with
    | nil => simp at hlen
    | cons g grest =>
      cases grest with
      | nil => simp at hlen
      | cons g2 grest2 =>
        rw [interBoldAnn_cons_cons]
        exact charsContain_mid (boldPat w.toList) g
          (annexFor t.toList ++ interBoldAnn w.toList t.toList (g2 :: grest2))
  rw [replaceWordCI_interBoldAnn w.toList t.toList (interBoldAnn w.toList t.toList gaps)
    hw hword ht hguard gaps (interBoldAnn w.toList t.toList gaps).length none
    (fun g hg => (hgaps g hg).2) (le_refl _)]

/-- Claim C8 (amended): with locale `es`, in any text assembled from
asterisk-free segments that do not themselves contain a lookup lemma (a lemma
made of word characters whose translation does not contain it either),
separated by emphasized occurrences `**lemma**`, every emphasized occurrence
gains its parenthetical translation immediately after it, exactly once per
occurrence, and nothing else changes; whether an occurrence is skipped as
already annotated is decided by a case-sensitive containment check for that
occurrence's own emphasized spelling, so the differently-cased plain
`Resilient` is annotated even though the lemma occurs emphasized; and a lemma
absent from the locale's lookup leaves the text completely unchanged. -/
theorem translation_injection_amended :
    (∀ (word t : String) (gaps : List (List Char)),
        esTranslations.lookup (lowerStr word) = some t →
        word.toList ≠ [] →
        (∀ c ∈ word.toList, isWordChar c = true) →
        ciCharsContain word.toList t.toList = false →
        2 ≤ gaps.length →
        (∀ g ∈ gaps, ('*' ∉ g) ∧ ciCharsContain word.toList g = false) →
        addTranslationsToText (String.mk (interBold word.toList gaps)) [word] "es" =
          String.mk (interBoldAnn word.toList t.toList gaps)) ∧
    (addTranslationsToText "Resilient and **resilient**" ["resilient"] "es" =
        "Resilient (resistente) and **resilient** (resistente)") ∧
    (∀ (text word : String), esTranslations.lookup (lowerStr word) = none →
        addTranslationsToText text [word] "es" = text) := by
  refine ⟨?_, by decide, ?_⟩
  · intro word t gaps hlook hne hword ht hlen hgaps
    have hstep : addTranslationsToText (String.mk (interBold word.toList gaps)) [word] "es" =
        (match esTranslations.lookup (lowerStr word) with
         | none => String.mk (interBold word.toList gaps)
         | some tr => addTranslationForWord word tr (String.mk (interBold word.toList gaps))) :=
      rfl
    rw [hstep, hlook]
    exact addTranslationForWord_interBold word t gaps hne hword ht hlen hgaps
  · intro text word h
    have hstep : addTranslationsToText text [word] "es" =
        (match esTranslations.lookup (lowerStr word) with
         | none => text
         | some tr => addTranslationForWord word tr text) := rfl
    rw [hstep, h]

theorem translation_injection_amended_witness :
    (esTranslations.lookup (lowerStr "resilient") = some "resistente" ∧
      esTranslations.lookup (lowerStr "fox") = none) ∧
    addTranslationsToText "The **resilient** fox was **resilient** again" ["resilient"] "es" =
      "The **resilient** (resistente) fox was **resilient** (resistente) again" ∧
    addTranslationsToText "the quick fox" ["fox"] "es" = "the quick fox" := by
  refine ⟨⟨by decide, by decide⟩, ?_,
    translation_injection_amended.2.2 "the quick fox" "fox" (by decide)⟩
  have h := translation_injection_amended.1 "resilient" "resistente"
    ["The ".toList, " fox was ".toList, " again".toList] (by decide) (by decide) (by decide)
    (by decide) (by decide) (by decide)
  have e1 : String.mk (interBold "resilient".toList
      ["The ".toList, " fox was ".toList, " again".toList]) =
      "The **resilient** fox was **resilient** again" := by decide
  have e2 : String.mk (interBoldAnn "resilient".toList "resistente".toList
      ["The ".toList, " fox was ".toList, " again".toList]) =
      "The **resilient** (resistente) fox was **resilient** (resistente) again" := by decide
  rw [← e1, ← e2]
  exact h
